import Mathlib

/-!
# Verification of the `compressVideo` transcoding pipeline (`src/lib/image-utils.ts`)

This file shallowly embeds the client-side video transcoding pipeline of the
repository: the function `compressVideo` (and its delegating alias
`compressVideoAsync`), the quality-to-number table `qualityToNumber`, the
target-geometry computation performed in `onloadedmetadata`, the internal
`cleanup` routine, and the seek/draw/encode loop `processNextFrame`.

JavaScript numbers are modelled as exact rationals (`ℚ`); the one place where
IEEE semantics differs in kind (division by a zero duration producing `+∞`,
which `Math.min (_, 100)` collapses to `100`) is modelled by an explicit
branch on `durationMs = 0`.

The event-driven control flow (the handlers `onloadedmetadata`, `oncanplay`,
`onseeked`, `video.onerror`, `recorder.onerror`, `recorder.onstop`, the
`play()` rejection handler and the `FileReader` callbacks) is embedded as a
small-step machine: a state `PState` mirroring the closure variables of
`compressVideo` plus instrumentation logs, and a `step` function consuming
platform events.  A run of the pipeline is a fold of `step` over an arbitrary
event list, so safety statements quantify over every delivery order the
platform could produce.  Seeks follow the HTML media-element discipline: at
most one seek is in progress per element (`pendingSeek`), and assigning
`currentTime` while a seek is in progress aborts the earlier seek, which then
never fires `seeked`.  The instrumentation counter `concurrent` counts
`currentTime` assignments minus delivered `seeked` events, i.e. exactly what
an instrumented decoder stub counting concurrent seek calls would observe.
-/

/-- The quality tiers accepted by `compressVideo` (`"performance" | "low" |
"medium" | "high" | "highest"`). -/
inductive Quality
  | performance
  | low
  | medium
  | high
  | highest
deriving DecidableEq, Repr

/-- `qualityToNumber` from the source: the fixed quality-to-weight table
`{performance: 0.3, low: 0.5, medium: 0.7, high: 0.85, highest: 1.0}`.
The `?? 0.7` fallback of the source is unreachable for the closed enum. -/
def qualityToNumber (quality : Quality) : ℚ :=
  match quality with
  | Quality.performance => 3 / 10
  | Quality.low => 5 / 10
  | Quality.medium => 7 / 10
  | Quality.high => 85 / 100
  | Quality.highest => 1

/-- The encoder bitrate passed to `MediaRecorder`:
`videoBitsPerSecond: Math.floor(qualityNumber * 5000000)`. -/
def videoBitsPerSecond (quality : Quality) : ℤ :=
  Int.floor (qualityToNumber quality * 5000000)

/-- The target-geometry computation performed inside `onloadedmetadata`
(identical shape in `compressVideo` and `generateVideoThumbnail`):

```
let width = video.videoWidth; let height = video.videoHeight;
if (width > maxWidth || height > maxHeight) {
  const aspectRatio = width / height;
  if (width > height) { width = Math.min(width, maxWidth); height = width / aspectRatio; }
  else { height = Math.min(height, maxHeight); width = height * aspectRatio; }
}
```
with `maxWidth = 1920`, `maxHeight = 1080`. -/
def computeTargetGeometry (width height : ℚ) : ℚ × ℚ :=
  if width > 1920 ∨ height > 1080 then
    if width > height then
      (min width 1920, min width 1920 / (width / height))
    else
      (min height 1080 * (width / height), min height 1080)
  else (width, height)

/-- Which `currentTime` assignment a pending seek came from: the initial
`video.currentTime = 0` at the end of `onloadedmetadata`, or a frame-loop
assignment `video.currentTime = nextFrameTime / 1000` in `processNextFrame`. -/
inductive SeekKind
  | first
  | frameLoop
deriving DecidableEq, Repr

/-- `MediaRecorder` state as used by the source (`"inactive"`/`"recording"`). -/
inductive RecState
  | inactive
  | recording
deriving DecidableEq, Repr

/-- The reason a run rejected its promise, one per `reject(...)` site of
`compressVideo`. -/
inductive FailReason
  | loadVideo
  | recorder
  | startRecording
  | playVideo
  | readOutput
deriving DecidableEq, Repr

/-- How the promise settled. -/
inductive Outcome
  | success
  | failure (r : FailReason)
deriving DecidableEq, Repr

/-- The per-job inputs of one `compressVideo(file, quality, fps, onProgress)`
call, together with the source metadata the decoder reports and two fault
switches for the fallible platform calls (`mediaRecorder.start()` throwing,
`ctx.drawImage` throwing). `durationMs` is `video.duration * 1000`. -/
structure Ctx where
  naturalW : ℚ
  naturalH : ℚ
  durationMs : ℚ
  fps : ℕ
  quality : Quality
  hasOnProgress : Bool
  startFails : Bool
  drawFails : Bool
deriving DecidableEq, Repr

/-- `const frameInterval = 1000 / fps`. -/
def frameInterval (c : Ctx) : ℚ := 1000 / (c.fps : ℚ)

/-- The machine state: the mutable variables of the `compressVideo` closure
(`isProcessing`, `hasStarted`, `isSeeking`, `frameCount`,
`lastProgressUpdate`, the recorder and its state, the object URL, the
animation-frame id — which the source never assigns — and the promise
settlement), the platform's single in-progress seek, plus instrumentation:
the drawn timestamps, every `currentTime` assignment (tagged with the
`frameCount` current at issue), the frame-loop assignments alone, the values
passed to `onProgress`, a stub counter of concurrently outstanding seek
calls with its running maximum, a flag recording whether a frame-loop seek
was ever issued while another frame-loop seek was still in progress, and a
flag recording that an exception escaped an event handler. -/
structure PState where
  isProcessing : Bool
  hasStarted : Bool
  isSeeking : Bool
  frameCount : ℕ
  lastProgressUpdate : ℚ
  recCreated : Bool
  recState : RecState
  stopFired : Bool
  onstopRan : Bool
  readerActive : Bool
  urlRevoked : Bool
  animFrame : Bool
  settled : Option Outcome
  canvasW : ℚ
  canvasH : ℚ
  pendingSeek : Option (SeekKind × ℚ)
  exn : Bool
  drawn : List ℚ
  seeks : List (SeekKind × ℕ × ℚ)
  frameLoopSeeks : List ℚ
  reports : List ℤ
  concurrent : ℕ
  maxConcurrent : ℕ
  frameLoopOverlap : Bool
deriving DecidableEq, Repr

/-- The state right after the promise executor body ran: handlers installed,
`video.src = URL.createObjectURL(file)` assigned, `video.load()` issued. -/
def initState : PState where
  isProcessing := false
  hasStarted := false
  isSeeking := false
  frameCount := 0
  lastProgressUpdate := 0
  recCreated := false
  recState := RecState.inactive
  stopFired := false
  onstopRan := false
  readerActive := false
  urlRevoked := false
  animFrame := false
  settled := none
  canvasW := 0
  canvasH := 0
  pendingSeek := none
  exn := false
  drawn := []
  seeks := []
  frameLoopSeeks := []
  reports := []
  concurrent := 0
  maxConcurrent := 0
  frameLoopOverlap := false

/-- Settling the promise: JavaScript promises ignore `resolve`/`reject`
after the first settlement. -/
def settle (o : Outcome) (s : PState) : PState :=
  match s.settled with
  | none => { s with settled := some o }
  | some _ => s

/-- The `cleanup` closure of `compressVideo`:

```
if (animationFrameId !== null) { cancelAnimationFrame(animationFrameId); animationFrameId = null; }
if (mediaRecorder && mediaRecorder.state !== "inactive") { try { mediaRecorder.stop(); } catch { } }
if (video.src) { URL.revokeObjectURL(video.src); }
```
`mediaRecorder.stop()` makes the recorder inactive and queues its `onstop`
event (`stopFired`); the `try`/`catch` swallows any throw, so the routine is
total.  `video.src` is always set by the executor, and revoking keeps it set,
so the revocation is unconditional and repeatable. -/
def cleanup (s : PState) : PState :=
  let s1 : PState := { s with animFrame := false }
  let s2 : PState :=
    if s1.recCreated = true ∧ s1.recState ≠ RecState.inactive then
      { s1 with recState := RecState.inactive, stopFired := true }
    else s1
  { s2 with urlRevoked := true }

/-- Whether the platform's in-progress seek is a frame-loop seek. -/
def pendingFrameLoop (s : PState) : Bool :=
  match s.pendingSeek with
  | some (SeekKind.frameLoop, _) => true
  | _ => false

/-- An assignment `video.currentTime = t`.  Per the HTML media-element seek
algorithm it replaces (aborts) any seek already in progress; the aborted seek
never fires `seeked`.  The instrumentation records the assignment, tags it
with the `frameCount` current at issue, bumps the stub concurrency counter,
and notes whether a frame-loop seek was issued over a frame-loop seek still
in progress. -/
def assignCurrentTime (k : SeekKind) (t : ℚ) (s : PState) : PState :=
  { s with
    pendingSeek := some (k, t)
    seeks := s.seeks ++ [(k, s.frameCount, t)]
    frameLoopSeeks :=
      if k = SeekKind.frameLoop then s.frameLoopSeeks ++ [t] else s.frameLoopSeeks
    frameLoopOverlap :=
      s.frameLoopOverlap || ((if k = SeekKind.frameLoop then true else false) && pendingFrameLoop s)
    concurrent := s.concurrent + 1
    maxConcurrent := max s.maxConcurrent (s.concurrent + 1) }

/-- `processNextFrame` from the source:

```
const processNextFrame = () => {
  if (!isProcessing || !mediaRecorder) return;
  if (!hasStarted) {
    hasStarted = true;
    if (mediaRecorder.state === "inactive") {
      try { mediaRecorder.start(); }
      catch (error) { cleanup(); reject(...); return; }
    }
  }
  ctx.drawImage(video, 0, 0, width, height);
  frameCount++;
  const nextFrameTime = frameCount * frameInterval;
  const totalDuration = video.duration * 1000;
  const progress = Math.min((nextFrameTime / totalDuration) * 100, 100);
  if (onProgress && (progress - lastProgressUpdate >= 3 || progress >= 100)) {
    onProgress(Math.floor(progress)); lastProgressUpdate = progress;
  }
  if (nextFrameTime < totalDuration) {
    if (!isSeeking) { isSeeking = true; video.currentTime = nextFrameTime / 1000; }
  } else {
    if (mediaRecorder.state === "recording") mediaRecorder.stop();
  }
};
```
The `!hasStarted` block is flattened: the early `return` after a throwing
`mediaRecorder.start()` is the second branch; otherwise `hasStarted` is set
and the recorder starts exactly when it was inactive.  `ctx.drawImage`
throwing (fault switch `drawFails`) is not guarded in the source, so the
exception escapes the calling event handler: mutations already made persist
and nothing else runs (`exn` is set).  `durationMs = 0` makes the progress
quotient `+∞` in JavaScript, hence `progress = 100`.

The body after the start block is split into named stages — `pnfStart`
(the `!hasStarted` block, reached when `start()` does not throw), `pnfDraw`
(`ctx.drawImage(...); frameCount++`), `pnfProgress` (the throttled
`onProgress` notification), `pnfAdvance` (issue the next seek or stop the
recorder) — composed in source order. -/
def pnfStart (s : PState) : PState :=
  if s.hasStarted = false ∧ s.recState = RecState.inactive then
    { s with hasStarted := true, recState := RecState.recording }
  else { s with hasStarted := true }

/-- `ctx.drawImage(video, 0, 0, width, height); frameCount++;` — the video
sits at timestamp `frameCount * frameInterval` when the draw happens. -/
def pnfDraw (c : Ctx) (s : PState) : PState :=
  { s with
    drawn := s.drawn ++ [(s.frameCount : ℚ) * frameInterval c]
    frameCount := s.frameCount + 1 }

/-- The progress computed after a draw, for the already-incremented
`frameCount`: `Math.min((nextFrameTime / totalDuration) * 100, 100)`; for a
zero total duration the JavaScript quotient is `+∞` and the minimum is 100. -/
def pnfProgressValue (c : Ctx) (frameCount : ℕ) : ℚ :=
  if c.durationMs = 0 then 100
  else min ((frameCount : ℚ) * frameInterval c / c.durationMs * 100) 100

/-- `if (onProgress && (progress - lastProgressUpdate >= 3 || progress >= 100))
{ onProgress(Math.floor(progress)); lastProgressUpdate = progress; }` -/
def pnfProgress (c : Ctx) (s : PState) : PState :=
  let progress : ℚ := pnfProgressValue c s.frameCount
  if c.hasOnProgress = true ∧ (3 ≤ progress - s.lastProgressUpdate ∨ 100 ≤ progress) then
    { s with
      reports := s.reports ++ [Int.floor progress]
      lastProgressUpdate := progress }
  else s

/-- `if (nextFrameTime < totalDuration) { if (!isSeeking) { isSeeking = true;
video.currentTime = nextFrameTime / 1000; } } else { if (mediaRecorder.state
=== "recording") mediaRecorder.stop(); }` -/
def pnfAdvance (c : Ctx) (s : PState) : PState :=
  if (s.frameCount : ℚ) * frameInterval c < c.durationMs then
    if s.isSeeking = false then
      assignCurrentTime SeekKind.frameLoop ((s.frameCount : ℚ) * frameInterval c)
        { s with isSeeking := true }
    else s
  else
    if s.recState = RecState.recording then
      { s with recState := RecState.inactive, stopFired := true }
    else s

/-- `processNextFrame` itself: the guard, the `!hasStarted` block with its
early `return` when `mediaRecorder.start()` throws, the unguarded
`ctx.drawImage` (whose exception escapes the handler when `drawFails`),
then progress reporting and the advance step. -/
def processNextFrame (c : Ctx) (s : PState) : PState :=
  if s.isProcessing = false ∨ s.recCreated = false then s
  else if s.hasStarted = false ∧ s.recState = RecState.inactive ∧ c.startFails = true then
    settle (Outcome.failure FailReason.startRecording) (cleanup { s with hasStarted := true })
  else if c.drawFails = true then { pnfStart s with exn := true }
  else pnfAdvance c (pnfProgress c (pnfDraw c (pnfStart s)))

/-- `video.onloadedmetadata`: guards on `isProcessing`, computes the target
geometry, sizes the canvas, creates the `MediaRecorder` on the captured
canvas stream, then `video.currentTime = 0` and `video.play()` (whose
rejection is the separate event `playError`). -/
def evMetadata (c : Ctx) (s : PState) : PState :=
  if s.isProcessing = true then s
  else
    let g := computeTargetGeometry c.naturalW c.naturalH
    assignCurrentTime SeekKind.first 0
      { s with
        isProcessing := true
        canvasW := g.1
        canvasH := g.2
        recCreated := true
        recState := RecState.inactive }

/-- `video.oncanplay`:
`if (!isProcessing || !mediaRecorder || hasStarted) return; processNextFrame();` -/
def evCanplay (c : Ctx) (s : PState) : PState :=
  if s.isProcessing = false ∨ s.recCreated = false ∨ s.hasStarted = true then s
  else processNextFrame c s

/-- Delivery of a `seeked` event: only a seek actually in progress can
complete (an aborted seek never fires).  The platform clears the in-progress
seek and the stub counter, then the handler runs:
`if (!isProcessing || !mediaRecorder || isSeeking === false) return;
isSeeking = false; processNextFrame();` -/
def evSeeked (c : Ctx) (s : PState) : PState :=
  match s.pendingSeek with
  | none => s
  | some _ =>
    let s1 : PState := { s with pendingSeek := none, concurrent := s.concurrent - 1 }
    if s1.isProcessing = false ∨ s1.recCreated = false ∨ s1.isSeeking = false then s1
    else processNextFrame c { s1 with isSeeking := false }

/-- `video.onerror`: `cleanup(); reject(new Error("Failed to load video"));` -/
def evVideoError (s : PState) : PState :=
  settle (Outcome.failure FailReason.loadVideo) (cleanup s)

/-- `recorder.onerror` (installed once the recorder exists):
`cleanup(); reject(new Error(...));` -/
def evRecError (s : PState) : PState :=
  if s.recCreated = true then settle (Outcome.failure FailReason.recorder) (cleanup s) else s

/-- Rejection of `video.play()` (the `.catch` at the end of
`onloadedmetadata`): `cleanup(); reject(new Error(...));` -/
def evPlayError (s : PState) : PState :=
  if s.isProcessing = true then settle (Outcome.failure FailReason.playVideo) (cleanup s) else s

/-- `recorder.onstop`: fires once after `stop()` was called; runs
`cleanup()`, assembles the chunk blob and starts a `FileReader` on it. -/
def evRecStopped (s : PState) : PState :=
  if s.stopFired = true ∧ s.onstopRan = false then
    { cleanup { s with onstopRan := true } with readerActive := true }
  else s

/-- `reader.onload` with a result: `resolve(e.target.result)`. -/
def evReaderLoad (s : PState) : PState :=
  if s.readerActive = true then settle Outcome.success { s with readerActive := false } else s

/-- `reader.onerror`: `reject(new Error("Failed to read compressed video"))`. -/
def evReaderError (s : PState) : PState :=
  if s.readerActive = true then
    settle (Outcome.failure FailReason.readOutput) { s with readerActive := false }
  else s

/-- The platform events that drive one `compressVideo` job. -/
inductive Ev
  | metadata
  | canplay
  | seeked
  | videoError
  | recError
  | playError
  | recStopped
  | readerLoad
  | readerError
deriving DecidableEq, Repr

/-- One event delivery. -/
def step (c : Ctx) (s : PState) : Ev → PState
  | Ev.metadata => evMetadata c s
  | Ev.canplay => evCanplay c s
  | Ev.seeked => evSeeked c s
  | Ev.videoError => evVideoError s
  | Ev.recError => evRecError s
  | Ev.playError => evPlayError s
  | Ev.recStopped => evRecStopped s
  | Ev.readerLoad => evReaderLoad s
  | Ev.readerError => evReaderError s

/-- A run of `compressVideo(file, quality, fps, onProgress)` under a given
platform event delivery order. -/
def compressVideo (c : Ctx) (tr : List Ev) : PState :=
  tr.foldl (step c) initState

/-- `compressVideoAsync`, the alias entry point:
`return compressVideo(file, quality, fps, onProgress);` — a pure delegation. -/
def compressVideoAsync (c : Ctx) (tr : List Ev) : PState :=
  compressVideo c tr

/-- The number of frames the loop draws on a complete run: the least `n`
with `n * frameInterval ≥ durationMs`, i.e. `⌈durationMs * fps / 1000⌉`. -/
def nFrames (c : Ctx) : ℕ :=
  Nat.ceil (c.durationMs * (c.fps : ℚ) / 1000)

/-- The canonical complete delivery order: metadata loads, `canplay` kicks
off the first draw, each of the `k` frame-loop seeks completes in turn, the
recorder's `onstop` fires, and the `FileReader` finishes. -/
def canonicalTrace (k : ℕ) : List Ev :=
  [Ev.metadata, Ev.canplay] ++ List.replicate k Ev.seeked ++ [Ev.recStopped, Ev.readerLoad]

/-- One draw's worth of the progress-throttling state (`lastProgressUpdate`
and the values passed to `onProgress`), as updated by draw number `j`
(frames are numbered from 0; after draw `j` the source's `frameCount` is
`j + 1`). -/
def reportStep (c : Ctx) (j : ℕ) (st : ℚ × List ℤ) : ℚ × List ℤ :=
  let nextFrameTime : ℚ := ((j + 1 : ℕ) : ℚ) * frameInterval c
  let progress : ℚ :=
    if c.durationMs = 0 then 100
    else min (nextFrameTime / c.durationMs * 100) 100
  if c.hasOnProgress = true ∧ (3 ≤ progress - st.1 ∨ 100 ≤ progress) then
    (progress, st.2 ++ [Int.floor progress])
  else st

/-- The progress-throttling state after draws `0, …, k-1`. -/
def reportsAfter (c : Ctx) (k : ℕ) : ℚ × List ℤ :=
  (List.range k).foldl (fun st j => reportStep c j st) (0, [])

/-- Resources are released: the temporary object URL is revoked, the
recorder is not running, and no animation frame is pending. -/
def released (s : PState) : Prop :=
  s.urlRevoked = true ∧ s.recState = RecState.inactive ∧ s.animFrame = false

/-- The state of the machine in the middle of the frame loop of a canonical
complete run, after the draws `0, …, k` and with the seek to frame `k + 1`
in flight. -/
def LoopInv (c : Ctx) (k : ℕ) (s : PState) : Prop :=
  s.isProcessing = true ∧ s.hasStarted = true ∧ s.recCreated = true ∧
  s.recState = RecState.recording ∧ s.settled = none ∧ s.exn = false ∧
  s.stopFired = false ∧ s.onstopRan = false ∧ s.readerActive = false ∧
  s.isSeeking = true ∧
  s.pendingSeek = some (SeekKind.frameLoop, ((k + 1 : ℕ) : ℚ) * frameInterval c) ∧
  s.frameCount = k + 1 ∧
  s.lastProgressUpdate = (reportsAfter c (k + 1)).1 ∧
  s.reports = (reportsAfter c (k + 1)).2 ∧
  s.drawn = (List.range (k + 1)).map (fun j : ℕ => (j : ℚ) * frameInterval c) ∧
  s.frameLoopSeeks = (List.range (k + 1)).map (fun j : ℕ => ((j + 1 : ℕ) : ℚ) * frameInterval c)

/-- The state right after draw `m - 1` ended the loop: `m` draws happened
and the recorder was stopped. -/
def FinishAt (c : Ctx) (m : ℕ) (s : PState) : Prop :=
  s.isProcessing = true ∧ s.hasStarted = true ∧ s.recCreated = true ∧
  s.recState = RecState.inactive ∧ s.settled = none ∧ s.exn = false ∧
  s.stopFired = true ∧ s.onstopRan = false ∧ s.readerActive = false ∧
  s.frameCount = m ∧
  s.lastProgressUpdate = (reportsAfter c m).1 ∧
  s.reports = (reportsAfter c m).2 ∧
  s.drawn = (List.range m).map (fun j : ℕ => (j : ℚ) * frameInterval c) ∧
  s.frameLoopSeeks = (List.range (m - 1)).map (fun j : ℕ => ((j + 1 : ℕ) : ℚ) * frameInterval c)

/-- The state right after the last draw of a canonical complete run: all
`nFrames` draws happened and the recorder was stopped. -/
def FinishInv (c : Ctx) (s : PState) : Prop :=
  FinishAt c (nFrames c) s

/-- Scenario A of the spec: a 640×360 source of duration 2000 ms transcoded
at `fps = 10` with a progress callback. -/
def sampleCtx : Ctx where
  naturalW := 640
  naturalH := 360
  durationMs := 2000
  fps := 10
  quality := Quality.performance
  hasOnProgress := true
  startFails := false
  drawFails := false

/-- A source whose per-frame progress increment is 7 percentage points
(duration 10000/7 ms at `fps = 10`), so the run's second-to-last progress
report is 98. -/
def throttleCtx : Ctx := { sampleCtx with durationMs := 10000 / 7 }

/-- Scenario B of the spec: a source whose duration is reported as 0. -/
def zeroDurCtx : Ctx := { sampleCtx with durationMs := 0 }

/-- A run in which `ctx.drawImage` throws. -/
def drawFailCtx : Ctx := { sampleCtx with drawFails := true }

/-- A run in which `mediaRecorder.start()` throws. -/
def startFailCtx : Ctx := { sampleCtx with startFails := true }

/-- The code's seek discipline: `isSeeking` is set exactly while a
frame-loop seek is in progress, `isSeeking` can only be set once the
pipeline is processing with a recorder present, and no frame-loop seek was
ever issued over a frame-loop seek still in progress. -/
def seekInv (s : PState) : Prop :=
  s.isSeeking = pendingFrameLoop s ∧
  (s.isSeeking = true → s.isProcessing = true ∧ s.recCreated = true) ∧
  s.frameLoopOverlap = false

/-- The invariant backing the seek-timestamp monotonicity claim: the logged
`currentTime` assignments carry strictly increasing timestamps, each equal to
its recorded issue-time `frameCount` times the frame interval, the last
logged assignment was issued at a `frameCount` no larger than the current
one, and before metadata loads nothing was logged. -/
def seeksInv (c : Ctx) (s : PState) : Prop :=
  List.Chain' (fun a b => a.2.2 < b.2.2) s.seeks ∧
  (∀ e ∈ s.seeks, e.2.2 = (e.2.1 : ℚ) * frameInterval c) ∧
  (∀ e ∈ s.seeks.getLast?, e.2.1 ≤ s.frameCount) ∧
  (s.isProcessing = false → s.seeks = [] ∧ s.frameCount = 0)

/-- Structural facts relating the recorder, the `onstop` chain and resource
release, maintained by every event. -/
def machineInv (s : PState) : Prop :=
  (s.recState = RecState.recording → s.recCreated = true ∧ s.hasStarted = true) ∧
  (s.stopFired = true → s.hasStarted = true) ∧
  (s.readerActive = true → released s ∧ s.hasStarted = true) ∧
  s.animFrame = false

/-! ## Concrete-run facts and the simple claim theorems -/

/-- C1 counterexample: the claim predicts `floor(2000 / (1000/10)) + 1 = 21`
sampled frames for a 2000 ms source at `fps = 10`, but the complete run draws
exactly 20 frames (timestamps 0, 100, …, 1900 ms) and further `seeked` or
`canplay` deliveries draw nothing more. -/
theorem c1_counterexample :
    (compressVideo sampleCtx (canonicalTrace 19)).settled = some Outcome.success ∧
    (compressVideo sampleCtx (canonicalTrace 19)).drawn.length = 20 ∧
    ¬ (compressVideo sampleCtx (canonicalTrace 19)).drawn.length = 21 ∧
    (step sampleCtx (compressVideo sampleCtx (canonicalTrace 19)) Ev.seeked).drawn.length = 20 ∧
    (step sampleCtx (compressVideo sampleCtx (canonicalTrace 19)) Ev.canplay).drawn.length = 20 := by
  norm_num [compressVideo, canonicalTrace, List.replicate, step, evMetadata, evCanplay, evSeeked,
    evRecStopped, evReaderLoad, processNextFrame, pnfStart, pnfDraw, pnfProgress, pnfProgressValue, pnfAdvance,
    assignCurrentTime,
    settle, cleanup, initState, sampleCtx, frameInterval, pendingFrameLoop, computeTargetGeometry]

/-- C2 counterexample: when `canplay` fires before the `seeked` of the
initial `video.currentTime = 0` assignment (an ordering the platform does
not forbid), the first frame-loop seek is issued while the initial seek has
not yet signalled completion through `onseeked`, so an instrumented stub
counting concurrent seek calls reads 2. -/
theorem c2_counterexample :
    (compressVideo sampleCtx [Ev.metadata, Ev.canplay]).maxConcurrent = 2 ∧
    ¬ (compressVideo sampleCtx [Ev.metadata, Ev.canplay]).maxConcurrent ≤ 1 := by
  norm_num [compressVideo, step, evMetadata, evCanplay, processNextFrame, pnfStart, pnfDraw, pnfProgress, pnfProgressValue, pnfAdvance,
    assignCurrentTime,
    settle, cleanup, initState, sampleCtx, frameInterval, pendingFrameLoop, computeTargetGeometry]

/-- C3 counterexample: with duration reported as 0 the run does not fail at
all — it draws one frame, issues no frame-loop seek (but does issue the one
initial seek to 0), stops the recorder and resolves successfully with a
degenerate one-frame artifact.  No `UnsupportedSource` error exists in the
code. -/
theorem c3_counterexample :
    (compressVideo zeroDurCtx [Ev.metadata, Ev.canplay, Ev.recStopped, Ev.readerLoad]).settled
        = some Outcome.success ∧
    (∀ r, ¬ (compressVideo zeroDurCtx
        [Ev.metadata, Ev.canplay, Ev.recStopped, Ev.readerLoad]).settled
        = some (Outcome.failure r)) ∧
    (compressVideo zeroDurCtx [Ev.metadata, Ev.canplay, Ev.recStopped, Ev.readerLoad]).frameLoopSeeks
        = [] ∧
    (compressVideo zeroDurCtx [Ev.metadata, Ev.canplay, Ev.recStopped, Ev.readerLoad]).seeks.length
        = 1 ∧
    (compressVideo zeroDurCtx [Ev.metadata, Ev.canplay, Ev.recStopped, Ev.readerLoad]).drawn.length
        = 1 := by
  have h : (compressVideo zeroDurCtx
        [Ev.metadata, Ev.canplay, Ev.recStopped, Ev.readerLoad]).settled
        = some Outcome.success ∧
      (compressVideo zeroDurCtx
        [Ev.metadata, Ev.canplay, Ev.recStopped, Ev.readerLoad]).frameLoopSeeks = [] ∧
      (compressVideo zeroDurCtx
        [Ev.metadata, Ev.canplay, Ev.recStopped, Ev.readerLoad]).seeks.length = 1 ∧
      (compressVideo zeroDurCtx
        [Ev.metadata, Ev.canplay, Ev.recStopped, Ev.readerLoad]).drawn.length = 1 := by
    norm_num [compressVideo, step, evMetadata, evCanplay, evRecStopped, evReaderLoad,
      processNextFrame, pnfStart, pnfDraw, pnfProgress, pnfProgressValue, pnfAdvance,
    assignCurrentTime,
      settle, cleanup, initState, zeroDurCtx, sampleCtx, frameInterval, pendingFrameLoop,
      computeTargetGeometry]
    decide
  refine ⟨h.1, fun r hr => ?_, h.2.1, h.2.2.1, h.2.2.2⟩
  rw [h.1] at hr
  simp at hr

/-- C4 counterexample: a 2000×1500 source is mapped to 1920×1440, whose
height exceeds the claimed 1080 bound. -/
theorem c4_counterexample :
    computeTargetGeometry 2000 1500 = (1920, 1440) ∧
    ¬ (computeTargetGeometry 2000 1500).2 ≤ 1080 := by
  norm_num [computeTargetGeometry]

/-- C6 counterexample: for a source with a 7-point progress increment per
frame, the reports are 7, 14, …, 98 followed by the mandatory final 100, so
the last two calls are separated by only 2 percentage points — the claimed
3-point minimum separation fails at the final call. -/
theorem c6_counterexample :
    (compressVideo throttleCtx (canonicalTrace 14)).reports =
      [7, 14, 21, 28, 35, 42, 49, 56, 63, 70, 77, 84, 91, 98, 100] ∧
    ¬ (3 ≤ (compressVideo throttleCtx (canonicalTrace 14)).reports.getD 14 0
          - (compressVideo throttleCtx (canonicalTrace 14)).reports.getD 13 0) := by
  norm_num [compressVideo, canonicalTrace, List.replicate, step, evMetadata, evCanplay, evSeeked,
    evRecStopped, evReaderLoad, processNextFrame, pnfStart, pnfDraw, pnfProgress, pnfProgressValue, pnfAdvance,
    assignCurrentTime,
    settle, cleanup, initState, throttleCtx, sampleCtx, frameInterval, pendingFrameLoop,
    computeTargetGeometry]

/-- C7 counterexample: `ctx.drawImage` is not guarded in `compressVideo`
(unlike in `generateVideoThumbnail`), so a draw failure escapes the event
handler: the promise is never settled, the recorder is left recording and
the object URL is never revoked. -/
theorem c7_counterexample :
    (compressVideo drawFailCtx [Ev.metadata, Ev.canplay]).exn = true ∧
    (compressVideo drawFailCtx [Ev.metadata, Ev.canplay]).settled = none ∧
    (compressVideo drawFailCtx [Ev.metadata, Ev.canplay]).recState = RecState.recording ∧
    (compressVideo drawFailCtx [Ev.metadata, Ev.canplay]).urlRevoked = false := by
  norm_num [compressVideo, step, evMetadata, evCanplay, processNextFrame, pnfStart, pnfDraw, pnfProgress, pnfProgressValue, pnfAdvance,
    assignCurrentTime,
    settle, cleanup, initState, drawFailCtx, sampleCtx, frameInterval, pendingFrameLoop,
    computeTargetGeometry]

/-- C8: the encoder bitrate equals `round(qualityWeight * 5000000)` for
every tier (the source's `Math.floor` agrees with `round` because every
product is an integer in exact arithmetic), and the tier `highest` bitrate
exceeds the tier `performance` bitrate by exactly the factor `1.0/0.3 = 10/3`:
as integers, `5000000 * 3 = 1500000 * 10`. -/
theorem c8_bitrate :
    (∀ q : Quality, videoBitsPerSecond q = round (qualityToNumber q * 5000000)) ∧
    videoBitsPerSecond Quality.highest * 3 = videoBitsPerSecond Quality.performance * 10 ∧
    (videoBitsPerSecond Quality.highest : ℚ) =
      1 / (3 / 10) * (videoBitsPerSecond Quality.performance : ℚ) := by
  refine ⟨fun q => ?_, ?_, ?_⟩
  · cases q <;> norm_num [videoBitsPerSecond, qualityToNumber, round_eq]
  · norm_num [videoBitsPerSecond, qualityToNumber]
  · norm_num [videoBitsPerSecond, qualityToNumber]

/-- C9: the `cleanup` routine of `compressVideo` — the pipeline's abandon
operation — is idempotent (running it on an already-cleaned state changes
nothing) and never alters the promise settlement, so invoking it twice or
after natural completion neither throws (it is a total function) nor changes
the result already returned. -/
theorem c9_cleanup_idempotent (s : PState) :
    cleanup (cleanup s) = cleanup s ∧ (cleanup s).settled = s.settled := by
  by_cases h : s.recCreated = true ∧ s.recState ≠ RecState.inactive
  · simp [cleanup, h]
  · simp [cleanup, h]

/-- C10: `compressVideoAsync` is a pure delegation to `compressVideo` with
the same arguments: for every input and every platform event order the two
entry points produce identical outcomes, progress reports and errors. -/
theorem c10_async_delegates (c : Ctx) (tr : List Ev) :
    compressVideoAsync c tr = compressVideo c tr := rfl

/-! ## Projection lemmas for the state transformers -/

@[simp] theorem settle_isProcessing (o : Outcome) (s : PState) :
    (settle o s).isProcessing = s.isProcessing := by
  unfold settle; split <;> rfl

@[simp] theorem settle_hasStarted (o : Outcome) (s : PState) :
    (settle o s).hasStarted = s.hasStarted := by
  unfold settle; split <;> rfl

@[simp] theorem settle_isSeeking (o : Outcome) (s : PState) :
    (settle o s).isSeeking = s.isSeeking := by
  unfold settle; split <;> rfl

@[simp] theorem settle_frameCount (o : Outcome) (s : PState) :
    (settle o s).frameCount = s.frameCount := by
  unfold settle; split <;> rfl

@[simp] theorem settle_lastProgressUpdate (o : Outcome) (s : PState) :
    (settle o s).lastProgressUpdate = s.lastProgressUpdate := by
  unfold settle; split <;> rfl

@[simp] theorem settle_recCreated (o : Outcome) (s : PState) :
    (settle o s).recCreated = s.recCreated := by
  unfold settle; split <;> rfl

@[simp] theorem settle_recState (o : Outcome) (s : PState) :
    (settle o s).recState = s.recState := by
  unfold settle; split <;> rfl

@[simp] theorem settle_stopFired (o : Outcome) (s : PState) :
    (settle o s).stopFired = s.stopFired := by
  unfold settle; split <;> rfl

@[simp] theorem settle_onstopRan (o : Outcome) (s : PState) :
    (settle o s).onstopRan = s.onstopRan := by
  unfold settle; split <;> rfl

@[simp] theorem settle_readerActive (o : Outcome) (s : PState) :
    (settle o s).readerActive = s.readerActive := by
  unfold settle; split <;> rfl

@[simp] theorem settle_urlRevoked (o : Outcome) (s : PState) :
    (settle o s).urlRevoked = s.urlRevoked := by
  unfold settle; split <;> rfl

@[simp] theorem settle_animFrame (o : Outcome) (s : PState) :
    (settle o s).animFrame = s.animFrame := by
  unfold settle; split <;> rfl

@[simp] theorem settle_canvasW (o : Outcome) (s : PState) :
    (settle o s).canvasW = s.canvasW := by
  unfold settle; split <;> rfl

@[simp] theorem settle_canvasH (o : Outcome) (s : PState) :
    (settle o s).canvasH = s.canvasH := by
  unfold settle; split <;> rfl

@[simp] theorem settle_pendingSeek (o : Outcome) (s : PState) :
    (settle o s).pendingSeek = s.pendingSeek := by
  unfold settle; split <;> rfl

@[simp] theorem settle_exn (o : Outcome) (s : PState) :
    (settle o s).exn = s.exn := by
  unfold settle; split <;> rfl

@[simp] theorem settle_drawn (o : Outcome) (s : PState) :
    (settle o s).drawn = s.drawn := by
  unfold settle; split <;> rfl

@[simp] theorem settle_seeks (o : Outcome) (s : PState) :
    (settle o s).seeks = s.seeks := by
  unfold settle; split <;> rfl

@[simp] theorem settle_frameLoopSeeks (o : Outcome) (s : PState) :
    (settle o s).frameLoopSeeks = s.frameLoopSeeks := by
  unfold settle; split <;> rfl

@[simp] theorem settle_reports (o : Outcome) (s : PState) :
    (settle o s).reports = s.reports := by
  unfold settle; split <;> rfl

@[simp] theorem settle_concurrent (o : Outcome) (s : PState) :
    (settle o s).concurrent = s.concurrent := by
  unfold settle; split <;> rfl

@[simp] theorem settle_maxConcurrent (o : Outcome) (s : PState) :
    (settle o s).maxConcurrent = s.maxConcurrent := by
  unfold settle; split <;> rfl

@[simp] theorem settle_frameLoopOverlap (o : Outcome) (s : PState) :
    (settle o s).frameLoopOverlap = s.frameLoopOverlap := by
  unfold settle; split <;> rfl

@[simp] theorem settle_settled_isSome (o : Outcome) (s : PState) :
    (settle o s).settled.isSome = true := by
  unfold settle; split <;> simp_all

@[simp] theorem settle_settled_of_some (o o' : Outcome) (s : PState)
    (h : s.settled = some o') : (settle o s).settled = some o' := by
  unfold settle; split <;> simp_all

@[simp] theorem settle_settled_of_none (o : Outcome) (s : PState)
    (h : s.settled = none) : (settle o s).settled = some o := by
  unfold settle; split <;> simp_all

@[simp] theorem cleanup_isProcessing (s : PState) :
    (cleanup s).isProcessing = s.isProcessing := by
  simp only [cleanup]; split <;> rfl

@[simp] theorem cleanup_hasStarted (s : PState) :
    (cleanup s).hasStarted = s.hasStarted := by
  simp only [cleanup]; split <;> rfl

@[simp] theorem cleanup_isSeeking (s : PState) :
    (cleanup s).isSeeking = s.isSeeking := by
  simp only [cleanup]; split <;> rfl

@[simp] theorem cleanup_frameCount (s : PState) :
    (cleanup s).frameCount = s.frameCount := by
  simp only [cleanup]; split <;> rfl

@[simp] theorem cleanup_lastProgressUpdate (s : PState) :
    (cleanup s).lastProgressUpdate = s.lastProgressUpdate := by
  simp only [cleanup]; split <;> rfl

@[simp] theorem cleanup_recCreated (s : PState) :
    (cleanup s).recCreated = s.recCreated := by
  simp only [cleanup]; split <;> rfl

@[simp] theorem cleanup_onstopRan (s : PState) :
    (cleanup s).onstopRan = s.onstopRan := by
  simp only [cleanup]; split <;> rfl

@[simp] theorem cleanup_readerActive (s : PState) :
    (cleanup s).readerActive = s.readerActive := by
  simp only [cleanup]; split <;> rfl

@[simp] theorem cleanup_settled (s : PState) :
    (cleanup s).settled = s.settled := by
  simp only [cleanup]; split <;> rfl

@[simp] theorem cleanup_canvasW (s : PState) :
    (cleanup s).canvasW = s.canvasW := by
  simp only [cleanup]; split <;> rfl

@[simp] theorem cleanup_canvasH (s : PState) :
    (cleanup s).canvasH = s.canvasH := by
  simp only [cleanup]; split <;> rfl

@[simp] theorem cleanup_pendingSeek (s : PState) :
    (cleanup s).pendingSeek = s.pendingSeek := by
  simp only [cleanup]; split <;> rfl

@[simp] theorem cleanup_exn (s : PState) :
    (cleanup s).exn = s.exn := by
  simp only [cleanup]; split <;> rfl

@[simp] theorem cleanup_drawn (s : PState) :
    (cleanup s).drawn = s.drawn := by
  simp only [cleanup]; split <;> rfl

@[simp] theorem cleanup_seeks (s : PState) :
    (cleanup s).seeks = s.seeks := by
  simp only [cleanup]; split <;> rfl

@[simp] theorem cleanup_frameLoopSeeks (s : PState) :
    (cleanup s).frameLoopSeeks = s.frameLoopSeeks := by
  simp only [cleanup]; split <;> rfl

@[simp] theorem cleanup_reports (s : PState) :
    (cleanup s).reports = s.reports := by
  simp only [cleanup]; split <;> rfl

@[simp] theorem cleanup_concurrent (s : PState) :
    (cleanup s).concurrent = s.concurrent := by
  simp only [cleanup]; split <;> rfl

@[simp] theorem cleanup_maxConcurrent (s : PState) :
    (cleanup s).maxConcurrent = s.maxConcurrent := by
  simp only [cleanup]; split <;> rfl

@[simp] theorem cleanup_frameLoopOverlap (s : PState) :
    (cleanup s).frameLoopOverlap = s.frameLoopOverlap := by
  simp only [cleanup]; split <;> rfl

@[simp] theorem cleanup_urlRevoked (s : PState) :
    (cleanup s).urlRevoked = true := by
  simp only [cleanup]

@[simp] theorem cleanup_animFrame (s : PState) :
    (cleanup s).animFrame = false := by
  simp only [cleanup]; split <;> rfl

@[simp] theorem assignCurrentTime_isProcessing (k : SeekKind) (t : ℚ) (s : PState) :
    (assignCurrentTime k t s).isProcessing = s.isProcessing := rfl

@[simp] theorem assignCurrentTime_hasStarted (k : SeekKind) (t : ℚ) (s : PState) :
    (assignCurrentTime k t s).hasStarted = s.hasStarted := rfl

@[simp] theorem assignCurrentTime_isSeeking (k : SeekKind) (t : ℚ) (s : PState) :
    (assignCurrentTime k t s).isSeeking = s.isSeeking := rfl

@[simp] theorem assignCurrentTime_frameCount (k : SeekKind) (t : ℚ) (s : PState) :
    (assignCurrentTime k t s).frameCount = s.frameCount := rfl

@[simp] theorem assignCurrentTime_lastProgressUpdate (k : SeekKind) (t : ℚ) (s : PState) :
    (assignCurrentTime k t s).lastProgressUpdate = s.lastProgressUpdate := rfl

@[simp] theorem assignCurrentTime_recCreated (k : SeekKind) (t : ℚ) (s : PState) :
    (assignCurrentTime k t s).recCreated = s.recCreated := rfl

@[simp] theorem assignCurrentTime_recState (k : SeekKind) (t : ℚ) (s : PState) :
    (assignCurrentTime k t s).recState = s.recState := rfl

@[simp] theorem assignCurrentTime_stopFired (k : SeekKind) (t : ℚ) (s : PState) :
    (assignCurrentTime k t s).stopFired = s.stopFired := rfl

@[simp] theorem assignCurrentTime_onstopRan (k : SeekKind) (t : ℚ) (s : PState) :
    (assignCurrentTime k t s).onstopRan = s.onstopRan := rfl

@[simp] theorem assignCurrentTime_readerActive (k : SeekKind) (t : ℚ) (s : PState) :
    (assignCurrentTime k t s).readerActive = s.readerActive := rfl

@[simp] theorem assignCurrentTime_urlRevoked (k : SeekKind) (t : ℚ) (s : PState) :
    (assignCurrentTime k t s).urlRevoked = s.urlRevoked := rfl

@[simp] theorem assignCurrentTime_animFrame (k : SeekKind) (t : ℚ) (s : PState) :
    (assignCurrentTime k t s).animFrame = s.animFrame := rfl

@[simp] theorem assignCurrentTime_settled (k : SeekKind) (t : ℚ) (s : PState) :
    (assignCurrentTime k t s).settled = s.settled := rfl

@[simp] theorem assignCurrentTime_canvasW (k : SeekKind) (t : ℚ) (s : PState) :
    (assignCurrentTime k t s).canvasW = s.canvasW := rfl

@[simp] theorem assignCurrentTime_canvasH (k : SeekKind) (t : ℚ) (s : PState) :
    (assignCurrentTime k t s).canvasH = s.canvasH := rfl

@[simp] theorem assignCurrentTime_exn (k : SeekKind) (t : ℚ) (s : PState) :
    (assignCurrentTime k t s).exn = s.exn := rfl

@[simp] theorem assignCurrentTime_drawn (k : SeekKind) (t : ℚ) (s : PState) :
    (assignCurrentTime k t s).drawn = s.drawn := rfl

@[simp] theorem assignCurrentTime_reports (k : SeekKind) (t : ℚ) (s : PState) :
    (assignCurrentTime k t s).reports = s.reports := rfl

/-! ## Projection lemmas for the `processNextFrame` stages -/

@[simp] theorem pnfStart_isProcessing (s : PState) :
    (pnfStart s).isProcessing = s.isProcessing := by
  simp only [pnfStart]; split <;> rfl

@[simp] theorem pnfStart_isSeeking (s : PState) :
    (pnfStart s).isSeeking = s.isSeeking := by
  simp only [pnfStart]; split <;> rfl

@[simp] theorem pnfStart_frameCount (s : PState) :
    (pnfStart s).frameCount = s.frameCount := by
  simp only [pnfStart]; split <;> rfl

@[simp] theorem pnfStart_lastProgressUpdate (s : PState) :
    (pnfStart s).lastProgressUpdate = s.lastProgressUpdate := by
  simp only [pnfStart]; split <;> rfl

@[simp] theorem pnfStart_recCreated (s : PState) :
    (pnfStart s).recCreated = s.recCreated := by
  simp only [pnfStart]; split <;> rfl

@[simp] theorem pnfStart_stopFired (s : PState) :
    (pnfStart s).stopFired = s.stopFired := by
  simp only [pnfStart]; split <;> rfl

@[simp] theorem pnfStart_onstopRan (s : PState) :
    (pnfStart s).onstopRan = s.onstopRan := by
  simp only [pnfStart]; split <;> rfl

@[simp] theorem pnfStart_readerActive (s : PState) :
    (pnfStart s).readerActive = s.readerActive := by
  simp only [pnfStart]; split <;> rfl

@[simp] theorem pnfStart_urlRevoked (s : PState) :
    (pnfStart s).urlRevoked = s.urlRevoked := by
  simp only [pnfStart]; split <;> rfl

@[simp] theorem pnfStart_animFrame (s : PState) :
    (pnfStart s).animFrame = s.animFrame := by
  simp only [pnfStart]; split <;> rfl

@[simp] theorem pnfStart_settled (s : PState) :
    (pnfStart s).settled = s.settled := by
  simp only [pnfStart]; split <;> rfl

@[simp] theorem pnfStart_canvasW (s : PState) :
    (pnfStart s).canvasW = s.canvasW := by
  simp only [pnfStart]; split <;> rfl

@[simp] theorem pnfStart_canvasH (s : PState) :
    (pnfStart s).canvasH = s.canvasH := by
  simp only [pnfStart]; split <;> rfl

@[simp] theorem pnfStart_pendingSeek (s : PState) :
    (pnfStart s).pendingSeek = s.pendingSeek := by
  simp only [pnfStart]; split <;> rfl

@[simp] theorem pnfStart_exn (s : PState) :
    (pnfStart s).exn = s.exn := by
  simp only [pnfStart]; split <;> rfl

@[simp] theorem pnfStart_drawn (s : PState) :
    (pnfStart s).drawn = s.drawn := by
  simp only [pnfStart]; split <;> rfl

@[simp] theorem pnfStart_seeks (s : PState) :
    (pnfStart s).seeks = s.seeks := by
  simp only [pnfStart]; split <;> rfl

@[simp] theorem pnfStart_frameLoopSeeks (s : PState) :
    (pnfStart s).frameLoopSeeks = s.frameLoopSeeks := by
  simp only [pnfStart]; split <;> rfl

@[simp] theorem pnfStart_reports (s : PState) :
    (pnfStart s).reports = s.reports := by
  simp only [pnfStart]; split <;> rfl

@[simp] theorem pnfStart_concurrent (s : PState) :
    (pnfStart s).concurrent = s.concurrent := by
  simp only [pnfStart]; split <;> rfl

@[simp] theorem pnfStart_maxConcurrent (s : PState) :
    (pnfStart s).maxConcurrent = s.maxConcurrent := by
  simp only [pnfStart]; split <;> rfl

@[simp] theorem pnfStart_frameLoopOverlap (s : PState) :
    (pnfStart s).frameLoopOverlap = s.frameLoopOverlap := by
  simp only [pnfStart]; split <;> rfl

@[simp] theorem pnfStart_hasStarted (s : PState) :
    (pnfStart s).hasStarted = true := by
  simp only [pnfStart]; split <;> rfl

@[simp] theorem pnfDraw_isProcessing (c : Ctx) (s : PState) :
    (pnfDraw c s).isProcessing = s.isProcessing := rfl

@[simp] theorem pnfDraw_hasStarted (c : Ctx) (s : PState) :
    (pnfDraw c s).hasStarted = s.hasStarted := rfl

@[simp] theorem pnfDraw_isSeeking (c : Ctx) (s : PState) :
    (pnfDraw c s).isSeeking = s.isSeeking := rfl

@[simp] theorem pnfDraw_lastProgressUpdate (c : Ctx) (s : PState) :
    (pnfDraw c s).lastProgressUpdate = s.lastProgressUpdate := rfl

@[simp] theorem pnfDraw_recCreated (c : Ctx) (s : PState) :
    (pnfDraw c s).recCreated = s.recCreated := rfl

@[simp] theorem pnfDraw_recState (c : Ctx) (s : PState) :
    (pnfDraw c s).recState = s.recState := rfl

@[simp] theorem pnfDraw_stopFired (c : Ctx) (s : PState) :
    (pnfDraw c s).stopFired = s.stopFired := rfl

@[simp] theorem pnfDraw_onstopRan (c : Ctx) (s : PState) :
    (pnfDraw c s).onstopRan = s.onstopRan := rfl

@[simp] theorem pnfDraw_readerActive (c : Ctx) (s : PState) :
    (pnfDraw c s).readerActive = s.readerActive := rfl

@[simp] theorem pnfDraw_urlRevoked (c : Ctx) (s : PState) :
    (pnfDraw c s).urlRevoked = s.urlRevoked := rfl

@[simp] theorem pnfDraw_animFrame (c : Ctx) (s : PState) :
    (pnfDraw c s).animFrame = s.animFrame := rfl

@[simp] theorem pnfDraw_settled (c : Ctx) (s : PState) :
    (pnfDraw c s).settled = s.settled := rfl

@[simp] theorem pnfDraw_canvasW (c : Ctx) (s : PState) :
    (pnfDraw c s).canvasW = s.canvasW := rfl

@[simp] theorem pnfDraw_canvasH (c : Ctx) (s : PState) :
    (pnfDraw c s).canvasH = s.canvasH := rfl

@[simp] theorem pnfDraw_pendingSeek (c : Ctx) (s : PState) :
    (pnfDraw c s).pendingSeek = s.pendingSeek := rfl

@[simp] theorem pnfDraw_exn (c : Ctx) (s : PState) :
    (pnfDraw c s).exn = s.exn := rfl

@[simp] theorem pnfDraw_seeks (c : Ctx) (s : PState) :
    (pnfDraw c s).seeks = s.seeks := rfl

@[simp] theorem pnfDraw_frameLoopSeeks (c : Ctx) (s : PState) :
    (pnfDraw c s).frameLoopSeeks = s.frameLoopSeeks := rfl

@[simp] theorem pnfDraw_reports (c : Ctx) (s : PState) :
    (pnfDraw c s).reports = s.reports := rfl

@[simp] theorem pnfDraw_concurrent (c : Ctx) (s : PState) :
    (pnfDraw c s).concurrent = s.concurrent := rfl

@[simp] theorem pnfDraw_maxConcurrent (c : Ctx) (s : PState) :
    (pnfDraw c s).maxConcurrent = s.maxConcurrent := rfl

@[simp] theorem pnfDraw_frameLoopOverlap (c : Ctx) (s : PState) :
    (pnfDraw c s).frameLoopOverlap = s.frameLoopOverlap := rfl

@[simp] theorem pnfDraw_frameCount (c : Ctx) (s : PState) :
    (pnfDraw c s).frameCount = s.frameCount + 1 := rfl

@[simp] theorem pnfDraw_drawn (c : Ctx) (s : PState) :
    (pnfDraw c s).drawn = s.drawn ++ [(s.frameCount : ℚ) * frameInterval c] := rfl

@[simp] theorem pnfProgress_isProcessing (c : Ctx) (s : PState) :
    (pnfProgress c s).isProcessing = s.isProcessing := by
  simp only [pnfProgress]; split <;> rfl

@[simp] theorem pnfProgress_hasStarted (c : Ctx) (s : PState) :
    (pnfProgress c s).hasStarted = s.hasStarted := by
  simp only [pnfProgress]; split <;> rfl

@[simp] theorem pnfProgress_isSeeking (c : Ctx) (s : PState) :
    (pnfProgress c s).isSeeking = s.isSeeking := by
  simp only [pnfProgress]; split <;> rfl

@[simp] theorem pnfProgress_frameCount (c : Ctx) (s : PState) :
    (pnfProgress c s).frameCount = s.frameCount := by
  simp only [pnfProgress]; split <;> rfl

@[simp] theorem pnfProgress_recCreated (c : Ctx) (s : PState) :
    (pnfProgress c s).recCreated = s.recCreated := by
  simp only [pnfProgress]; split <;> rfl

@[simp] theorem pnfProgress_recState (c : Ctx) (s : PState) :
    (pnfProgress c s).recState = s.recState := by
  simp only [pnfProgress]; split <;> rfl

@[simp] theorem pnfProgress_stopFired (c : Ctx) (s : PState) :
    (pnfProgress c s).stopFired = s.stopFired := by
  simp only [pnfProgress]; split <;> rfl

@[simp] theorem pnfProgress_onstopRan (c : Ctx) (s : PState) :
    (pnfProgress c s).onstopRan = s.onstopRan := by
  simp only [pnfProgress]; split <;> rfl

@[simp] theorem pnfProgress_readerActive (c : Ctx) (s : PState) :
    (pnfProgress c s).readerActive = s.readerActive := by
  simp only [pnfProgress]; split <;> rfl

@[simp] theorem pnfProgress_urlRevoked (c : Ctx) (s : PState) :
    (pnfProgress c s).urlRevoked = s.urlRevoked := by
  simp only [pnfProgress]; split <;> rfl

@[simp] theorem pnfProgress_animFrame (c : Ctx) (s : PState) :
    (pnfProgress c s).animFrame = s.animFrame := by
  simp only [pnfProgress]; split <;> rfl

@[simp] theorem pnfProgress_settled (c : Ctx) (s : PState) :
    (pnfProgress c s).settled = s.settled := by
  simp only [pnfProgress]; split <;> rfl

@[simp] theorem pnfProgress_canvasW (c : Ctx) (s : PState) :
    (pnfProgress c s).canvasW = s.canvasW := by
  simp only [pnfProgress]; split <;> rfl

@[simp] theorem pnfProgress_canvasH (c : Ctx) (s : PState) :
    (pnfProgress c s).canvasH = s.canvasH := by
  simp only [pnfProgress]; split <;> rfl

@[simp] theorem pnfProgress_pendingSeek (c : Ctx) (s : PState) :
    (pnfProgress c s).pendingSeek = s.pendingSeek := by
  simp only [pnfProgress]; split <;> rfl

@[simp] theorem pnfProgress_exn (c : Ctx) (s : PState) :
    (pnfProgress c s).exn = s.exn := by
  simp only [pnfProgress]; split <;> rfl

@[simp] theorem pnfProgress_drawn (c : Ctx) (s : PState) :
    (pnfProgress c s).drawn = s.drawn := by
  simp only [pnfProgress]; split <;> rfl

@[simp] theorem pnfProgress_seeks (c : Ctx) (s : PState) :
    (pnfProgress c s).seeks = s.seeks := by
  simp only [pnfProgress]; split <;> rfl

@[simp] theorem pnfProgress_frameLoopSeeks (c : Ctx) (s : PState) :
    (pnfProgress c s).frameLoopSeeks = s.frameLoopSeeks := by
  simp only [pnfProgress]; split <;> rfl

@[simp] theorem pnfProgress_concurrent (c : Ctx) (s : PState) :
    (pnfProgress c s).concurrent = s.concurrent := by
  simp only [pnfProgress]; split <;> rfl

@[simp] theorem pnfProgress_maxConcurrent (c : Ctx) (s : PState) :
    (pnfProgress c s).maxConcurrent = s.maxConcurrent := by
  simp only [pnfProgress]; split <;> rfl

@[simp] theorem pnfProgress_frameLoopOverlap (c : Ctx) (s : PState) :
    (pnfProgress c s).frameLoopOverlap = s.frameLoopOverlap := by
  simp only [pnfProgress]; split <;> rfl

@[simp] theorem pnfAdvance_isProcessing (c : Ctx) (s : PState) :
    (pnfAdvance c s).isProcessing = s.isProcessing := by
  simp only [pnfAdvance, assignCurrentTime]; split <;> split <;> rfl

@[simp] theorem pnfAdvance_hasStarted (c : Ctx) (s : PState) :
    (pnfAdvance c s).hasStarted = s.hasStarted := by
  simp only [pnfAdvance, assignCurrentTime]; split <;> split <;> rfl

@[simp] theorem pnfAdvance_recCreated (c : Ctx) (s : PState) :
    (pnfAdvance c s).recCreated = s.recCreated := by
  simp only [pnfAdvance, assignCurrentTime]; split <;> split <;> rfl

@[simp] theorem pnfAdvance_settled (c : Ctx) (s : PState) :
    (pnfAdvance c s).settled = s.settled := by
  simp only [pnfAdvance, assignCurrentTime]; split <;> split <;> rfl

@[simp] theorem pnfAdvance_frameCount (c : Ctx) (s : PState) :
    (pnfAdvance c s).frameCount = s.frameCount := by
  simp only [pnfAdvance, assignCurrentTime]; split <;> split <;> rfl

@[simp] theorem pnfAdvance_lastProgressUpdate (c : Ctx) (s : PState) :
    (pnfAdvance c s).lastProgressUpdate = s.lastProgressUpdate := by
  simp only [pnfAdvance, assignCurrentTime]; split <;> split <;> rfl

@[simp] theorem pnfAdvance_drawn (c : Ctx) (s : PState) :
    (pnfAdvance c s).drawn = s.drawn := by
  simp only [pnfAdvance, assignCurrentTime]; split <;> split <;> rfl

@[simp] theorem pnfAdvance_reports (c : Ctx) (s : PState) :
    (pnfAdvance c s).reports = s.reports := by
  simp only [pnfAdvance, assignCurrentTime]; split <;> split <;> rfl

@[simp] theorem pnfAdvance_urlRevoked (c : Ctx) (s : PState) :
    (pnfAdvance c s).urlRevoked = s.urlRevoked := by
  simp only [pnfAdvance, assignCurrentTime]; split <;> split <;> rfl

@[simp] theorem pnfAdvance_animFrame (c : Ctx) (s : PState) :
    (pnfAdvance c s).animFrame = s.animFrame := by
  simp only [pnfAdvance, assignCurrentTime]; split <;> split <;> rfl

@[simp] theorem pnfAdvance_readerActive (c : Ctx) (s : PState) :
    (pnfAdvance c s).readerActive = s.readerActive := by
  simp only [pnfAdvance, assignCurrentTime]; split <;> split <;> rfl

@[simp] theorem pnfAdvance_onstopRan (c : Ctx) (s : PState) :
    (pnfAdvance c s).onstopRan = s.onstopRan := by
  simp only [pnfAdvance, assignCurrentTime]; split <;> split <;> rfl

@[simp] theorem pnfAdvance_exn (c : Ctx) (s : PState) :
    (pnfAdvance c s).exn = s.exn := by
  simp only [pnfAdvance, assignCurrentTime]; split <;> split <;> rfl

@[simp] theorem pnfAdvance_canvasW (c : Ctx) (s : PState) :
    (pnfAdvance c s).canvasW = s.canvasW := by
  simp only [pnfAdvance, assignCurrentTime]; split <;> split <;> rfl

@[simp] theorem pnfAdvance_canvasH (c : Ctx) (s : PState) :
    (pnfAdvance c s).canvasH = s.canvasH := by
  simp only [pnfAdvance, assignCurrentTime]; split <;> split <;> rfl

/-! ## The seek re-entrancy discipline (C2) -/

theorem pendingFrameLoop_ext (a b : PState) (h : a.pendingSeek = b.pendingSeek) :
    pendingFrameLoop a = pendingFrameLoop b := by
  unfold pendingFrameLoop; rw [h]

@[simp] theorem pendingFrameLoop_pnfStart (s : PState) :
    pendingFrameLoop (pnfStart s) = pendingFrameLoop s :=
  pendingFrameLoop_ext _ _ (by simp)

@[simp] theorem pendingFrameLoop_pnfDraw (c : Ctx) (s : PState) :
    pendingFrameLoop (pnfDraw c s) = pendingFrameLoop s :=
  pendingFrameLoop_ext _ _ (by simp)

@[simp] theorem pendingFrameLoop_pnfProgress (c : Ctx) (s : PState) :
    pendingFrameLoop (pnfProgress c s) = pendingFrameLoop s :=
  pendingFrameLoop_ext _ _ (by simp)

@[simp] theorem pendingFrameLoop_settle (o : Outcome) (s : PState) :
    pendingFrameLoop (settle o s) = pendingFrameLoop s :=
  pendingFrameLoop_ext _ _ (by simp)

@[simp] theorem pendingFrameLoop_cleanup (s : PState) :
    pendingFrameLoop (cleanup s) = pendingFrameLoop s :=
  pendingFrameLoop_ext _ _ (by simp)

theorem pnfAdvance_seekOk (c : Ctx) (s : PState)
    (h1 : s.isSeeking = pendingFrameLoop s)
    (h3 : s.frameLoopOverlap = false)
    (hp : s.isProcessing = true) (hr : s.recCreated = true) :
    (pnfAdvance c s).isSeeking = pendingFrameLoop (pnfAdvance c s) ∧
    ((pnfAdvance c s).isSeeking = true →
      (pnfAdvance c s).isProcessing = true ∧ (pnfAdvance c s).recCreated = true) ∧
    (pnfAdvance c s).frameLoopOverlap = false := by
  unfold pnfAdvance
  split
  · split
    · rename_i hlt hseek
      refine ⟨?_, fun _ => ?_, ?_⟩
      · simp [assignCurrentTime, pendingFrameLoop]
      · simp [assignCurrentTime, hp, hr]
      · have hps : pendingFrameLoop s = false := h1 ▸ hseek
        simp [assignCurrentTime, h3]
        simpa [pendingFrameLoop] using hps
    · exact ⟨h1, fun _ => ⟨hp, hr⟩, h3⟩
  · split
    · refine ⟨?_, fun _ => ⟨hp, hr⟩, h3⟩
      have : pendingFrameLoop { s with recState := RecState.inactive, stopFired := true }
          = pendingFrameLoop s := pendingFrameLoop_ext _ _ rfl
      rw [this]; exact h1
    · exact ⟨h1, fun _ => ⟨hp, hr⟩, h3⟩

theorem processNextFrame_seekOk (c : Ctx) (s : PState)
    (h1 : s.isSeeking = pendingFrameLoop s)
    (h2 : s.isSeeking = true → s.isProcessing = true ∧ s.recCreated = true)
    (h3 : s.frameLoopOverlap = false) :
    (processNextFrame c s).isSeeking = pendingFrameLoop (processNextFrame c s) ∧
    ((processNextFrame c s).isSeeking = true →
      (processNextFrame c s).isProcessing = true ∧ (processNextFrame c s).recCreated = true) ∧
    (processNextFrame c s).frameLoopOverlap = false := by
  unfold processNextFrame
  split_ifs with hG hS hD
  · exact ⟨h1, h2, h3⟩
  · obtain ⟨hp, hr⟩ : s.isProcessing = true ∧ s.recCreated = true := by simpa using hG
    refine ⟨?_, fun _ => ?_, ?_⟩
    · simpa [pendingFrameLoop] using h1
    · simp [hp, hr]
    · simpa using h3
  · obtain ⟨hp, hr⟩ : s.isProcessing = true ∧ s.recCreated = true := by simpa using hG
    refine ⟨?_, fun _ => ?_, ?_⟩
    · simpa [pendingFrameLoop] using h1
    · simp [hp, hr]
    · simpa using h3
  · obtain ⟨hp, hr⟩ : s.isProcessing = true ∧ s.recCreated = true := by simpa using hG
    exact pnfAdvance_seekOk c _ (by simpa using h1) (by simpa using h3)
      (by simpa using hp) (by simpa using hr)

theorem step_seekInv (c : Ctx) (s : PState) (e : Ev) (h : seekInv s) :
    seekInv (step c s e) := by
  obtain ⟨h1, h2, h3⟩ := h
  cases e
  case metadata =>
    show seekInv (evMetadata c s)
    unfold evMetadata
    split
    · exact ⟨h1, h2, h3⟩
    · rename_i hip
      have hseek : s.isSeeking = false := by
        rcases Bool.eq_false_or_eq_true s.isSeeking with hx | hx
        · exact absurd (h2 hx).1 (by simpa using hip)
        · exact hx
      refine ⟨?_, fun hx => ?_, ?_⟩
      · simp [assignCurrentTime, pendingFrameLoop, hseek]
      · simp only [assignCurrentTime] at hx
        rw [hseek] at hx
        cases hx
      · simp [assignCurrentTime, pendingFrameLoop, h3]
  case canplay =>
    show seekInv (evCanplay c s)
    unfold evCanplay
    split
    · exact ⟨h1, h2, h3⟩
    · exact processNextFrame_seekOk c s h1 h2 h3
  case seeked =>
    show seekInv (evSeeked c s)
    unfold evSeeked
    split
    · exact ⟨h1, h2, h3⟩
    · rename_i kv hps
      have hseekfalse : s.isProcessing = false ∨ s.recCreated = false → s.isSeeking = false := by
        intro hd
        rcases Bool.eq_false_or_eq_true s.isSeeking with hx | hx
        · rcases hd with hd | hd
          · rw [(h2 hx).1] at hd; cases hd
          · rw [(h2 hx).2] at hd; cases hd
        · exact hx
      dsimp only
      split_ifs with hg
      · rcases hg with hg | hg | hg
        · have hs0 : s.isSeeking = false := hseekfalse (Or.inl hg)
          exact ⟨by simpa [pendingFrameLoop] using hs0,
            fun hx => absurd hx (by simp [hs0]), h3⟩
        · have hs0 : s.isSeeking = false := hseekfalse (Or.inr hg)
          exact ⟨by simpa [pendingFrameLoop] using hs0,
            fun hx => absurd hx (by simp [hs0]), h3⟩
        · exact ⟨by simpa [pendingFrameLoop] using hg,
            fun hx => absurd hx (by simp [hg]), h3⟩
      · exact processNextFrame_seekOk c _ (by simp [pendingFrameLoop]) (by intro hx; cases hx)
          (by simpa using h3)
  case videoError =>
    show seekInv (evVideoError s)
    unfold evVideoError
    exact ⟨by simpa using h1, fun hx => by simp at hx; simpa [hx] using h2 hx, by simpa using h3⟩
  case recError =>
    show seekInv (evRecError s)
    unfold evRecError
    split
    · exact ⟨by simpa using h1, fun hx => by simp at hx; simpa [hx] using h2 hx, by simpa using h3⟩
    · exact ⟨h1, h2, h3⟩
  case playError =>
    show seekInv (evPlayError s)
    unfold evPlayError
    split
    · exact ⟨by simpa using h1, fun hx => by simp at hx; simpa [hx] using h2 hx, by simpa using h3⟩
    · exact ⟨h1, h2, h3⟩
  case recStopped =>
    show seekInv (evRecStopped s)
    unfold evRecStopped
    split
    · refine ⟨?_, fun hx => ?_, ?_⟩
      · have hpf : pendingFrameLoop { cleanup { s with onstopRan := true } with readerActive := true }
            = pendingFrameLoop s := pendingFrameLoop_ext _ _ (by simp)
        simpa [hpf] using h1
      · have hx2 : s.isSeeking = true := by simpa using hx
        simpa using h2 hx2
      · simpa using h3
    · exact ⟨h1, h2, h3⟩
  case readerLoad =>
    show seekInv (evReaderLoad s)
    unfold evReaderLoad
    split
    · refine ⟨?_, fun hx => ?_, ?_⟩
      · have hpf : pendingFrameLoop (settle Outcome.success { s with readerActive := false })
            = pendingFrameLoop s := pendingFrameLoop_ext _ _ (by simp)
        simpa [hpf] using h1
      · have hx2 : s.isSeeking = true := by simpa using hx
        simpa using h2 hx2
      · simpa using h3
    · exact ⟨h1, h2, h3⟩
  case readerError =>
    show seekInv (evReaderError s)
    unfold evReaderError
    split
    · refine ⟨?_, fun hx => ?_, ?_⟩
      · have hpf : pendingFrameLoop
            (settle (Outcome.failure FailReason.readOutput) { s with readerActive := false })
            = pendingFrameLoop s := pendingFrameLoop_ext _ _ (by simp)
        simpa [hpf] using h1
      · have hx2 : s.isSeeking = true := by simpa using hx
        simpa using h2 hx2
      · simpa using h3
    · exact ⟨h1, h2, h3⟩

theorem compressVideo_seekInv (c : Ctx) (tr : List Ev) : seekInv (compressVideo c tr) := by
  unfold compressVideo
  have h : ∀ s, seekInv s → seekInv (tr.foldl (step c) s) := by
    induction tr with
    | nil => exact fun s hs => hs
    | cons e t ih => exact fun s hs => ih _ (step_seekInv c s e hs)
  exact h initState ⟨rfl, fun hx => absurd hx (by decide), rfl⟩

/-- C2 amended: a new frame-loop seek is never issued while a previously
issued frame-loop seek is still in progress — under the platform's seek
semantics (one seek in progress per media element, a `seeked` delivery
completing the seek currently in progress), in every run and under every
event delivery order, `isSeeking` is set exactly while a frame-loop seek is
in progress and no frame-loop `currentTime` assignment ever happens while
another frame-loop seek is in progress.  (The count including the *initial*
`currentTime = 0` assignment of `onloadedmetadata` can reach 2, per the
counterexample.) -/
theorem c2_amended (c : Ctx) (tr : List Ev) :
    (compressVideo c tr).frameLoopOverlap = false ∧
    (compressVideo c tr).isSeeking = pendingFrameLoop (compressVideo c tr) :=
  ⟨(compressVideo_seekInv c tr).2.2, (compressVideo_seekInv c tr).1⟩

/-! ## Seek-timestamp monotonicity (C5) -/

theorem mem_of_mem_getLast (l : List α) (x : α) (h : x ∈ l.getLast?) : x ∈ l := by
  obtain ⟨hne, rfl⟩ := List.mem_getLast?_eq_getLast h
  exact List.getLast_mem hne

theorem processNextFrame_seeksInv (c : Ctx) (s : PState) (hfi : 0 < frameInterval c)
    (h : seeksInv c s) : seeksInv c (processNextFrame c s) := by
  obtain ⟨p1, p2, p3, p4⟩ := h
  unfold processNextFrame
  split_ifs with hG hS hD
  · exact ⟨p1, p2, p3, p4⟩
  · obtain ⟨hp, hr⟩ : s.isProcessing = true ∧ s.recCreated = true := by simpa using hG
    refine ⟨by simpa using p1, ?_, ?_, ?_⟩
    · intro e he; simp at he; exact p2 e he
    · intro e he; simp at he ⊢; exact p3 e he
    · intro hip; simp [hp] at hip
  · obtain ⟨hp, hr⟩ : s.isProcessing = true ∧ s.recCreated = true := by simpa using hG
    refine ⟨by simpa using p1, ?_, ?_, ?_⟩
    · intro e he; simp at he; exact p2 e he
    · intro e he; simp at he ⊢; exact p3 e he
    · intro hip; simp [hp] at hip
  · obtain ⟨hp, hr⟩ : s.isProcessing = true ∧ s.recCreated = true := by simpa using hG
    unfold pnfAdvance
    split_ifs with hlt hsk
    · -- issue the next frame-loop seek
      refine ⟨?_, ?_, ?_, ?_⟩
      · simp only [assignCurrentTime]
        rw [List.chain'_append]
        refine ⟨by simpa using p1, List.chain'_singleton _, ?_⟩
        intro x hx y hy
        simp at hx hy
        subst hy
        have hxmem : x ∈ s.seeks := mem_of_mem_getLast _ _ (by simpa using hx)
        have hxv := p2 x hxmem
        have hxi := p3 x (by simpa using hx)
        simp at hxi
        rw [hxv]
        have hcast : (x.2.1 : ℚ) < (s.frameCount : ℚ) + 1 := by
          exact_mod_cast Nat.lt_succ_of_le hxi
        push_cast
        exact mul_lt_mul_of_pos_right hcast hfi
      · intro e he
        simp only [assignCurrentTime, List.mem_append, List.mem_singleton] at he
        rcases he with he | he
        · exact p2 e (by simpa using he)
        · subst he; rfl
      · intro e he
        simp only [assignCurrentTime, List.getLast?_concat, Option.mem_def,
          Option.some.injEq] at he
        subst he
        simp [assignCurrentTime]
      · intro hip; simp [hp] at hip
    · refine ⟨by simpa using p1, ?_, ?_, ?_⟩
      · intro e he; simp at he; exact p2 e he
      · intro e he; simp at he ⊢
        exact le_trans (p3 e he) (Nat.le_succ _)
      · intro hip; simp [hp] at hip
    · refine ⟨by simpa using p1, ?_, ?_, ?_⟩
      · intro e he; simp at he; exact p2 e he
      · intro e he; simp at he ⊢
        exact le_trans (p3 e he) (Nat.le_succ _)
      · intro hip; simp [hp] at hip
    · refine ⟨by simpa using p1, ?_, ?_, ?_⟩
      · intro e he; simp at he; exact p2 e he
      · intro e he; simp at he ⊢
        exact le_trans (p3 e he) (Nat.le_succ _)
      · intro hip; simp [hp] at hip

theorem step_seeksInv (c : Ctx) (s : PState) (e : Ev) (hfi : 0 < frameInterval c)
    (h : seeksInv c s) : seeksInv c (step c s e) := by
  obtain ⟨p1, p2, p3, p4⟩ := h
  cases e
  case metadata =>
    show seeksInv c (evMetadata c s)
    unfold evMetadata
    split
    · exact ⟨p1, p2, p3, p4⟩
    · rename_i hip
      have hip0 : s.isProcessing = false := by
        rcases Bool.eq_false_or_eq_true s.isProcessing with hx | hx
        · exact absurd hx (by simpa using hip)
        · exact hx
      obtain ⟨hsk, hfc⟩ := p4 hip0
      refine ⟨?_, ?_, ?_, ?_⟩
      · simp [assignCurrentTime, hsk]
      · intro e he
        simp only [assignCurrentTime] at he
        simp [hsk] at he
        subst he; simp [hfc]
      · intro e he
        simp only [assignCurrentTime] at he
        simp [hsk] at he
        subst he; simp
      · intro hip2; simp [assignCurrentTime] at hip2
  case canplay =>
    show seeksInv c (evCanplay c s)
    unfold evCanplay
    split
    · exact ⟨p1, p2, p3, p4⟩
    · exact processNextFrame_seeksInv c s hfi ⟨p1, p2, p3, p4⟩
  case seeked =>
    show seeksInv c (evSeeked c s)
    unfold evSeeked
    split
    · exact ⟨p1, p2, p3, p4⟩
    · rename_i kv hps
      dsimp only
      split_ifs with hg
      · exact ⟨p1, p2, p3, fun hip => by simpa using p4 (by simpa using hip)⟩
      · refine processNextFrame_seeksInv c _ hfi ⟨p1, p2, p3, ?_⟩
        intro hip
        simpa using p4 (by simpa using hip)
  case videoError =>
    show seeksInv c (evVideoError s)
    unfold evVideoError
    refine ⟨by simpa using p1, ?_, ?_, ?_⟩
    · intro e he; simp at he; exact p2 e he
    · intro e he; simp at he ⊢; exact p3 e he
    · intro hip; simp at hip; simpa using p4 hip
  case recError =>
    show seeksInv c (evRecError s)
    unfold evRecError
    split
    · refine ⟨by simpa using p1, ?_, ?_, ?_⟩
      · intro e he; simp at he; exact p2 e he
      · intro e he; simp at he ⊢; exact p3 e he
      · intro hip; simp at hip; simpa using p4 hip
    · exact ⟨p1, p2, p3, p4⟩
  case playError =>
    show seeksInv c (evPlayError s)
    unfold evPlayError
    split
    · refine ⟨by simpa using p1, ?_, ?_, ?_⟩
      · intro e he; simp at he; exact p2 e he
      · intro e he; simp at he ⊢; exact p3 e he
      · intro hip; simp at hip; simpa using p4 hip
    · exact ⟨p1, p2, p3, p4⟩
  case recStopped =>
    show seeksInv c (evRecStopped s)
    unfold evRecStopped
    split
    · refine ⟨by simpa using p1, ?_, ?_, ?_⟩
      · intro e he; simp at he; exact p2 e he
      · intro e he; simp at he ⊢; exact p3 e he
      · intro hip; simp at hip; simpa using p4 hip
    · exact ⟨p1, p2, p3, p4⟩
  case readerLoad =>
    show seeksInv c (evReaderLoad s)
    unfold evReaderLoad
    split
    · refine ⟨by simpa using p1, ?_, ?_, ?_⟩
      · intro e he; simp at he; exact p2 e he
      · intro e he; simp at he ⊢; exact p3 e he
      · intro hip; simp at hip; simpa using p4 hip
    · exact ⟨p1, p2, p3, p4⟩
  case readerError =>
    show seeksInv c (evReaderError s)
    unfold evReaderError
    split
    · refine ⟨by simpa using p1, ?_, ?_, ?_⟩
      · intro e he; simp at he; exact p2 e he
      · intro e he; simp at he ⊢; exact p3 e he
      · intro hip; simp at hip; simpa using p4 hip
    · exact ⟨p1, p2, p3, p4⟩

theorem compressVideo_seeksInv (c : Ctx) (tr : List Ev) (hfi : 0 < frameInterval c) :
    seeksInv c (compressVideo c tr) := by
  unfold compressVideo
  have h : ∀ s, seeksInv c s → seeksInv c (tr.foldl (step c) s) := by
    induction tr with
    | nil => exact fun s hs => hs
    | cons e t ih => exact fun s hs => ih _ (step_seeksInv c s e hfi hs)
  refine h initState ⟨?_, ?_, ?_, ?_⟩
  · simp [initState]
  · intro e he; simp [initState] at he
  · intro e he; simp [initState] at he
  · intro _; exact ⟨rfl, rfl⟩

/-- C5: in every run of `compressVideo`, under every platform event delivery
order, the sequence of timestamps passed to seek — the `currentTime`
assignments, the initial seek to 0 included — is strictly increasing, and
every assigned timestamp equals `frameCount * (1000/fps)` for the
`frameCount` current at the moment the assignment is issued (the middle
component of each logged assignment). -/
theorem c5_seek_timestamps (c : Ctx) (tr : List Ev) (hfps : 1 ≤ c.fps) :
    List.Chain' (fun a b => a.2.2 < b.2.2) (compressVideo c tr).seeks ∧
    ∀ e ∈ (compressVideo c tr).seeks, e.2.2 = (e.2.1 : ℚ) * frameInterval c := by
  have hfpos : 0 < c.fps := lt_of_lt_of_le (by norm_num) hfps
  have hcast : (0 : ℚ) < (c.fps : ℚ) := by exact_mod_cast hfpos
  have hfi : 0 < frameInterval c := div_pos (by norm_num) hcast
  obtain ⟨p1, p2, _, _⟩ := compressVideo_seeksInv c tr hfi
  exact ⟨p1, p2⟩

/-- Witness for C5 at a concrete input. -/
theorem c5_witness :
    List.Chain' (fun a b => a.2.2 < b.2.2) (compressVideo sampleCtx [Ev.metadata]).seeks ∧
    ∀ e ∈ (compressVideo sampleCtx [Ev.metadata]).seeks,
      e.2.2 = (e.2.1 : ℚ) * frameInterval sampleCtx :=
  c5_seek_timestamps sampleCtx [Ev.metadata] (by norm_num [sampleCtx])

/-! ## Geometry clamp (C4) -/

/-- C4 amended: for positive source dimensions the computed width never
exceeds 1920 and the aspect ratio is preserved exactly (in exact
arithmetic), but the height bound of the original claim fails: when the
source is landscape and wider than 1920 with an aspect ratio below 16:9,
the scaled height exceeds 1080 (counterexample: 2000×1500 → 1920×1440). -/
theorem c4_amended (w h : ℚ) (hw : 0 < w) (hh : 0 < h) :
    (computeTargetGeometry w h).1 ≤ 1920 ∧
    (computeTargetGeometry w h).2 * w = (computeTargetGeometry w h).1 * h := by
  unfold computeTargetGeometry
  split_ifs with hc hwh
  · refine ⟨min_le_right _ _, ?_⟩
    field_simp
  · refine ⟨?_, ?_⟩
    · have h1 : w / h ≤ 1 := (div_le_one hh).2 (le_of_not_lt hwh)
      have h2 : min h 1080 ≤ 1080 := min_le_right _ _
      calc min h 1080 * (w / h) ≤ 1080 * 1 :=
            mul_le_mul h2 h1 (div_nonneg hw.le hh.le) (by norm_num)
        _ ≤ 1920 := by norm_num
    · field_simp
  · push_neg at hc
    exact ⟨hc.1, by ring⟩

/-- Witness for C4 at a concrete input. -/
theorem c4_witness :
    (0 : ℚ) < 2000 ∧ (0 : ℚ) < 1500 ∧
    ((computeTargetGeometry 2000 1500).1 ≤ 1920 ∧
     (computeTargetGeometry 2000 1500).2 * 2000 = (computeTargetGeometry 2000 1500).1 * 1500) :=
  ⟨by norm_num, by norm_num, c4_amended 2000 1500 (by norm_num) (by norm_num)⟩

/-! ## Error handling and resource release (C7) -/

theorem cleanup_recState_inactive (s : PState)
    (h : s.recState = RecState.recording → s.recCreated = true) :
    (cleanup s).recState = RecState.inactive := by
  simp only [cleanup]
  split_ifs with hg
  · rfl
  · cases hrs : s.recState
    · rfl
    · exact absurd ⟨h hrs, by simp [hrs]⟩ hg

theorem cleanup_stopFired_imp (s : PState) (h : (cleanup s).stopFired = true) :
    s.stopFired = true ∨ s.recState = RecState.recording := by
  revert h
  simp only [cleanup]
  split_ifs with hg
  · intro _
    right
    cases hrs : s.recState
    · exact absurd hrs hg.2
    · rfl
  · intro h
    exact Or.inl h

theorem released_cleanup (s : PState)
    (h : s.recState = RecState.recording → s.recCreated = true) :
    released (cleanup s) :=
  ⟨by simp, cleanup_recState_inactive s h, by simp⟩

theorem processNextFrame_machineInv (c : Ctx) (s : PState) (h : machineInv s) :
    machineInv (processNextFrame c s) := by
  obtain ⟨m1, m2, m3, m4⟩ := h
  unfold processNextFrame
  split_ifs with hG hS hD
  · exact ⟨m1, m2, m3, m4⟩
  · -- start() threw: settle/cleanup of a state whose recState is inactive
    obtain ⟨hSa, hSb, hSc⟩ := hS
    refine ⟨?_, ?_, ?_, by simp⟩
    · intro hr
      rw [show (settle (Outcome.failure FailReason.startRecording)
          (cleanup { s with hasStarted := true })).recState
          = (cleanup { s with hasStarted := true }).recState from by simp] at hr
      rw [cleanup_recState_inactive _ (fun hx => by
        have hcc : ({ s with hasStarted := true } : PState).recState = RecState.inactive := hSb
        rw [hcc] at hx
        cases hx)] at hr
      cases hr
    · intro _
      simp
    · intro hra
      simp at hra
      refine ⟨⟨by simp, ?_, by simp⟩, by simp⟩
      rw [settle_recState]
      refine cleanup_recState_inactive _ (fun hx => ?_)
      have hcc : ({ s with hasStarted := true } : PState).recState = RecState.inactive := hSb
      rw [hcc] at hx
      cases hx
  · -- drawImage threw
    obtain ⟨hp, hrc⟩ : s.isProcessing = true ∧ s.recCreated = true := by simpa using hG
    by_cases hra : s.readerActive = true
    · obtain ⟨⟨hurl, hrs, hanim⟩, hhs⟩ := m3 hra
      refine ⟨?_, fun _ => by simp, ?_, by simpa using m4⟩
      · intro hr
        simp only [pnfStart] at hr
        rw [if_neg (by simp [hhs])] at hr
        simp [hrs] at hr
      · intro _
        refine ⟨⟨by simpa using hurl, ?_, by simpa using m4⟩, by simp⟩
        simp only [pnfStart]
        rw [if_neg (by simp [hhs])]
        simpa using hrs
    · refine ⟨?_, fun _ => by simp, ?_, by simpa using m4⟩
      · intro _
        exact ⟨by simpa using hrc, by simp⟩
      · intro hx
        simp at hx
        exact absurd hx hra
  · -- normal path
    obtain ⟨hp, hrc⟩ : s.isProcessing = true ∧ s.recCreated = true := by simpa using hG
    by_cases hra : s.readerActive = true
    · obtain ⟨⟨hurl, hrs, hanim⟩, hhs⟩ := m3 hra
      have hstart : (pnfStart s).recState = s.recState := by
        simp only [pnfStart]
        rw [if_neg (by simp [hhs])]
      unfold pnfAdvance
      split_ifs with hlt hsk
      · refine ⟨?_, ?_, ?_, by simpa using m4⟩
        · intro hr
          simp only [assignCurrentTime] at hr
          simp only [pnfProgress_recState, pnfDraw_recState] at hr
          rw [hstart, hrs] at hr
          cases hr
        · intro hsf
          simp only [assignCurrentTime] at hsf
          simp at hsf
          simp [m2 hsf]
        · intro hx
          refine ⟨⟨by simpa using hurl, ?_, by simpa using m4⟩, by simp⟩
          simp only [assignCurrentTime]
          simp only [pnfProgress_recState, pnfDraw_recState]
          rw [hstart]
          exact hrs
      · refine ⟨?_, ?_, ?_, by simpa using m4⟩
        · intro hr
          simp only [pnfProgress_recState, pnfDraw_recState] at hr
          rw [hstart, hrs] at hr
          cases hr
        · intro hsf
          simp at hsf
          simp [m2 hsf]
        · intro hx
          refine ⟨⟨by simpa using hurl, ?_, by simpa using m4⟩, by simp⟩
          simp only [pnfProgress_recState, pnfDraw_recState]
          rw [hstart]
          exact hrs
      · refine ⟨?_, fun _ => by simp, ?_, by simpa using m4⟩
        · intro hr
          simp at hr
        · intro hx
          refine ⟨⟨by simpa using hurl, by simp, by simpa using m4⟩, by simp⟩
      · refine ⟨?_, ?_, ?_, by simpa using m4⟩
        · intro hr
          simp only [pnfProgress_recState, pnfDraw_recState] at hr
          rw [hstart, hrs] at hr
          cases hr
        · intro hsf
          simp at hsf
          simp [m2 hsf]
        · intro hx
          refine ⟨⟨by simpa using hurl, ?_, by simpa using m4⟩, by simp⟩
          simp only [pnfProgress_recState, pnfDraw_recState]
          rw [hstart]
          exact hrs
    · unfold pnfAdvance
      split_ifs with hlt hsk
      · refine ⟨?_, ?_, ?_, by simpa using m4⟩
        · intro _
          exact ⟨by simpa using hrc, by simp⟩
        · intro hsf
          simp only [assignCurrentTime] at hsf
          simp at hsf
          simp [m2 hsf]
        · intro hx
          simp only [assignCurrentTime] at hx
          simp at hx
          exact absurd hx hra
      · refine ⟨?_, ?_, ?_, by simpa using m4⟩
        · intro _
          exact ⟨by simpa using hrc, by simp⟩
        · intro hsf
          simp at hsf
          simp [m2 hsf]
        · intro hx
          simp at hx
          exact absurd hx hra
      · refine ⟨?_, fun _ => by simp, ?_, by simpa using m4⟩
        · intro hr
          simp at hr
        · intro hx
          simp at hx
          exact absurd hx hra
      · refine ⟨?_, ?_, ?_, by simpa using m4⟩
        · intro _
          exact ⟨by simpa using hrc, by simp⟩
        · intro hsf
          simp at hsf
          simp [m2 hsf]
        · intro hx
          simp at hx
          exact absurd hx hra

theorem step_machineInv (c : Ctx) (s : PState) (e : Ev) (h : machineInv s) :
    machineInv (step c s e) := by
  obtain ⟨m1, m2, m3, m4⟩ := h
  cases e
  case metadata =>
    show machineInv (evMetadata c s)
    unfold evMetadata
    split
    · exact ⟨m1, m2, m3, m4⟩
    · refine ⟨?_, ?_, ?_, by simpa using m4⟩
      · intro hr
        simp at hr
      · intro hsf
        simp at hsf
        simp [m2 hsf]
      · intro hra
        simp at hra
        obtain ⟨⟨hurl, hrs, hanim⟩, hhs⟩ := m3 hra
        exact ⟨⟨by simpa using hurl, by simp, by simpa using m4⟩, by simpa using hhs⟩
  case canplay =>
    show machineInv (evCanplay c s)
    unfold evCanplay
    split
    · exact ⟨m1, m2, m3, m4⟩
    · exact processNextFrame_machineInv c s ⟨m1, m2, m3, m4⟩
  case seeked =>
    show machineInv (evSeeked c s)
    unfold evSeeked
    split
    · exact ⟨m1, m2, m3, m4⟩
    · rename_i kv hps
      dsimp only
      split_ifs with hg
      · refine ⟨?_, ?_, ?_, by simpa using m4⟩
        · intro hr; have := m1 hr; exact ⟨this.1, this.2⟩
        · intro hsf; exact m2 hsf
        · intro hra
          obtain ⟨⟨hurl, hrs, hanim⟩, hhs⟩ := m3 hra
          exact ⟨⟨hurl, hrs, by simpa using m4⟩, hhs⟩
      · refine processNextFrame_machineInv c _ ⟨?_, ?_, ?_, by simpa using m4⟩
        · intro hr; exact m1 hr
        · intro hsf; exact m2 hsf
        · intro hra
          obtain ⟨⟨hurl, hrs, hanim⟩, hhs⟩ := m3 hra
          exact ⟨⟨hurl, hrs, by simpa using m4⟩, hhs⟩
  case videoError =>
    show machineInv (evVideoError s)
    unfold evVideoError
    have hrec : (cleanup s).recState = RecState.inactive :=
      cleanup_recState_inactive s (fun hr => (m1 hr).1)
    refine ⟨?_, ?_, ?_, by simp⟩
    · intro hr
      rw [settle_recState, hrec] at hr
      cases hr
    · intro hsf
      rw [settle_stopFired] at hsf
      rcases cleanup_stopFired_imp s hsf with hold | hrs
      · simp [m2 hold]
      · simp [(m1 hrs).2]
    · intro hra
      simp at hra
      obtain ⟨_, hhs⟩ := m3 hra
      exact ⟨⟨by simp, by rw [settle_recState, hrec], by simp⟩, by simpa using hhs⟩
  case recError =>
    show machineInv (evRecError s)
    unfold evRecError
    split
    · have hrec : (cleanup s).recState = RecState.inactive :=
        cleanup_recState_inactive s (fun hr => (m1 hr).1)
      refine ⟨?_, ?_, ?_, by simp⟩
      · intro hr
        rw [settle_recState, hrec] at hr
        cases hr
      · intro hsf
        rw [settle_stopFired] at hsf
        rcases cleanup_stopFired_imp s hsf with hold | hrs
        · simp [m2 hold]
        · simp [(m1 hrs).2]
      · intro hra
        simp at hra
        obtain ⟨_, hhs⟩ := m3 hra
        exact ⟨⟨by simp, by rw [settle_recState, hrec], by simp⟩, by simpa using hhs⟩
    · exact ⟨m1, m2, m3, m4⟩
  case playError =>
    show machineInv (evPlayError s)
    unfold evPlayError
    split
    · have hrec : (cleanup s).recState = RecState.inactive :=
        cleanup_recState_inactive s (fun hr => (m1 hr).1)
      refine ⟨?_, ?_, ?_, by simp⟩
      · intro hr
        rw [settle_recState, hrec] at hr
        cases hr
      · intro hsf
        rw [settle_stopFired] at hsf
        rcases cleanup_stopFired_imp s hsf with hold | hrs
        · simp [m2 hold]
        · simp [(m1 hrs).2]
      · intro hra
        simp at hra
        obtain ⟨_, hhs⟩ := m3 hra
        exact ⟨⟨by simp, by rw [settle_recState, hrec], by simp⟩, by simpa using hhs⟩
    · exact ⟨m1, m2, m3, m4⟩
  case recStopped =>
    show machineInv (evRecStopped s)
    unfold evRecStopped
    split
    · rename_i hcond
      obtain ⟨hsf, hnor⟩ := hcond
      have hhs := m2 hsf
      have hrec : (cleanup { s with onstopRan := true }).recState = RecState.inactive :=
        cleanup_recState_inactive _ (fun hr => (m1 hr).1)
      refine ⟨?_, ?_, ?_, by simp⟩
      · intro hr
        have hr2 : (cleanup { s with onstopRan := true }).recState = RecState.recording := hr
        rw [hrec] at hr2
        cases hr2
      · intro _
        simp [hhs]
      · intro _
        refine ⟨⟨by simp, ?_, by simp⟩, by simpa using hhs⟩
        exact hrec
    · exact ⟨m1, m2, m3, m4⟩
  case readerLoad =>
    show machineInv (evReaderLoad s)
    unfold evReaderLoad
    split
    · refine ⟨?_, ?_, ?_, by simpa using m4⟩
      · intro hr
        simp at hr
        have := m1 hr
        exact ⟨by simpa using this.1, by simpa using this.2⟩
      · intro hsf
        simp at hsf
        simpa using m2 hsf
      · intro hra
        simp at hra
    · exact ⟨m1, m2, m3, m4⟩
  case readerError =>
    show machineInv (evReaderError s)
    unfold evReaderError
    split
    · refine ⟨?_, ?_, ?_, by simpa using m4⟩
      · intro hr
        simp at hr
        have := m1 hr
        exact ⟨by simpa using this.1, by simpa using this.2⟩
      · intro hsf
        simp at hsf
        simpa using m2 hsf
      · intro hra
        simp at hra
    · exact ⟨m1, m2, m3, m4⟩

theorem compressVideo_machineInv (c : Ctx) (tr : List Ev) :
    machineInv (compressVideo c tr) := by
  unfold compressVideo
  have h : ∀ s, machineInv s → machineInv (tr.foldl (step c) s) := by
    induction tr with
    | nil => exact fun s hs => hs
    | cons e t ih => exact fun s hs => ih _ (step_machineInv c s e hs)
  refine h initState ⟨?_, ?_, ?_, rfl⟩
  · intro hr; cases hr
  · intro hsf; cases hsf
  · intro hra; cases hra

theorem processNextFrame_settled_mono (c : Ctx) (s : PState) (o : Outcome)
    (h : s.settled = some o) : (processNextFrame c s).settled = some o := by
  unfold processNextFrame
  split_ifs with hG hS hD
  · exact h
  · exact settle_settled_of_some _ _ _ (by simpa using h)
  · simpa using h
  · simpa using h

theorem step_settled_mono (c : Ctx) (s : PState) (e : Ev) (o : Outcome)
    (h : s.settled = some o) : (step c s e).settled = some o := by
  cases e
  case metadata =>
    show (evMetadata c s).settled = some o
    unfold evMetadata
    split
    · exact h
    · simpa using h
  case canplay =>
    show (evCanplay c s).settled = some o
    unfold evCanplay
    split
    · exact h
    · exact processNextFrame_settled_mono c s o h
  case seeked =>
    show (evSeeked c s).settled = some o
    unfold evSeeked
    split
    · exact h
    · dsimp only
      split_ifs with hg
      · exact h
      · exact processNextFrame_settled_mono c _ o h
  case videoError =>
    show (evVideoError s).settled = some o
    exact settle_settled_of_some _ _ _ (by simpa using h)
  case recError =>
    show (evRecError s).settled = some o
    unfold evRecError
    split
    · exact settle_settled_of_some _ _ _ (by simpa using h)
    · exact h
  case playError =>
    show (evPlayError s).settled = some o
    unfold evPlayError
    split
    · exact settle_settled_of_some _ _ _ (by simpa using h)
    · exact h
  case recStopped =>
    show (evRecStopped s).settled = some o
    unfold evRecStopped
    split
    · simpa using h
    · exact h
  case readerLoad =>
    show (evReaderLoad s).settled = some o
    unfold evReaderLoad
    split
    · exact settle_settled_of_some _ _ _ (by simpa using h)
    · exact h
  case readerError =>
    show (evReaderError s).settled = some o
    unfold evReaderError
    split
    · exact settle_settled_of_some _ _ _ (by simpa using h)
    · exact h

theorem processNextFrame_new_failure (c : Ctx) (s : PState) (r : FailReason)
    (hnone : s.settled = none)
    (hsome : (processNextFrame c s).settled = some (Outcome.failure r)) :
    released (processNextFrame c s) := by
  unfold processNextFrame at hsome ⊢
  split_ifs at hsome ⊢ with hG hS hD
  · rw [hnone] at hsome; cases hsome
  · obtain ⟨hSa, hSb, hSc⟩ := hS
    refine ⟨by simp, ?_, by simp⟩
    rw [settle_recState]
    refine cleanup_recState_inactive _ (fun hx => ?_)
    have hcc : ({ s with hasStarted := true } : PState).recState = RecState.inactive := hSb
    rw [hcc] at hx
    cases hx
  · simp [hnone] at hsome
  · simp [hnone] at hsome

theorem step_new_failure (c : Ctx) (s : PState) (e : Ev) (r : FailReason)
    (hm : machineInv s) (hnone : s.settled = none)
    (hsome : (step c s e).settled = some (Outcome.failure r)) :
    released (step c s e) := by
  obtain ⟨m1, m2, m3, m4⟩ := hm
  cases e
  case metadata =>
    revert hsome
    show (evMetadata c s).settled = some (Outcome.failure r) → released (evMetadata c s)
    unfold evMetadata
    split
    · intro hsome; rw [hnone] at hsome; cases hsome
    · intro hsome
      rw [assignCurrentTime_settled] at hsome
      simp [hnone] at hsome
  case canplay =>
    revert hsome
    show (evCanplay c s).settled = some (Outcome.failure r) → released (evCanplay c s)
    unfold evCanplay
    split
    · intro hsome; rw [hnone] at hsome; cases hsome
    · intro hsome
      exact processNextFrame_new_failure c s r hnone hsome
  case seeked =>
    revert hsome
    show (evSeeked c s).settled = some (Outcome.failure r) → released (evSeeked c s)
    unfold evSeeked
    split
    · intro hsome; rw [hnone] at hsome; cases hsome
    · dsimp only
      split_ifs with hg
      · intro hsome; rw [show ∀ t : PState, t.settled = t.settled from fun _ => rfl] at hsome
        rw [hnone] at hsome; cases hsome
      · intro hsome
        exact processNextFrame_new_failure c _ r hnone hsome
  case videoError =>
    show released (settle (Outcome.failure FailReason.loadVideo) (cleanup s))
    refine ⟨by simp, ?_, by simp⟩
    rw [settle_recState]
    exact cleanup_recState_inactive s (fun hr => (m1 hr).1)
  case recError =>
    revert hsome
    show (evRecError s).settled = some (Outcome.failure r) → released (evRecError s)
    unfold evRecError
    split
    · intro _
      refine ⟨by simp, ?_, by simp⟩
      rw [settle_recState]
      exact cleanup_recState_inactive s (fun hr => (m1 hr).1)
    · intro hsome; rw [hnone] at hsome; cases hsome
  case playError =>
    revert hsome
    show (evPlayError s).settled = some (Outcome.failure r) → released (evPlayError s)
    unfold evPlayError
    split
    · intro _
      refine ⟨by simp, ?_, by simp⟩
      rw [settle_recState]
      exact cleanup_recState_inactive s (fun hr => (m1 hr).1)
    · intro hsome; rw [hnone] at hsome; cases hsome
  case recStopped =>
    revert hsome
    show (evRecStopped s).settled = some (Outcome.failure r) → released (evRecStopped s)
    unfold evRecStopped
    split
    · intro hsome
      rw [show ({ cleanup { s with onstopRan := true } with readerActive := true} : PState).settled
          = s.settled from by simp, hnone] at hsome
      cases hsome
    · intro hsome; rw [hnone] at hsome; cases hsome
  case readerLoad =>
    revert hsome
    show (evReaderLoad s).settled = some (Outcome.failure r) → released (evReaderLoad s)
    unfold evReaderLoad
    split
    · intro hsome
      rw [settle_settled_of_none _ _ (by simpa using hnone)] at hsome
      cases hsome
    · intro hsome; rw [hnone] at hsome; cases hsome
  case readerError =>
    revert hsome
    show (evReaderError s).settled = some (Outcome.failure r) → released (evReaderError s)
    unfold evReaderError
    split
    · rename_i hra
      intro _
      obtain ⟨⟨hurl, hrs, hanim⟩, _⟩ := m3 hra
      exact ⟨by simpa using hurl, by simpa using hrs, by simpa using hanim⟩
    · intro hsome; rw [hnone] at hsome; cases hsome

/-- C7 amended: a settled promise is never changed by any later event;
the handled failures — metadata/source load failure (`video.onerror`),
recorder error, `play()` rejection, output-read failure — settle the promise
whenever they fire (so none of them leaves it pending), and any step that
newly surfaces a rejection has, in its post-state, the object URL revoked,
the recorder inactive and no pending animation frame.  A recorder start
failure (`mediaRecorder.start()` throwing on the first frame) likewise
settles the promise at the very step that attempts the start, with the
resources released, and rejects with the start-recording error when the
promise was still pending.  (A draw failure, by contrast, is unhandled —
see the counterexample.) -/
theorem c7_amended (c : Ctx) (tr : List Ev) :
    (∀ o e, (compressVideo c tr).settled = some o →
        (step c (compressVideo c tr) e).settled = some o) ∧
    (step c (compressVideo c tr) Ev.videoError).settled.isSome = true ∧
    ((compressVideo c tr).recCreated = true →
        (step c (compressVideo c tr) Ev.recError).settled.isSome = true) ∧
    ((compressVideo c tr).isProcessing = true →
        (step c (compressVideo c tr) Ev.playError).settled.isSome = true) ∧
    ((compressVideo c tr).readerActive = true →
        (step c (compressVideo c tr) Ev.readerError).settled.isSome = true) ∧
    (∀ r e, (compressVideo c tr).settled = none →
        (step c (compressVideo c tr) e).settled = some (Outcome.failure r) →
        released (step c (compressVideo c tr) e)) ∧
    (c.startFails = true → (compressVideo c tr).isProcessing = true →
        (compressVideo c tr).recCreated = true →
        (compressVideo c tr).hasStarted = false →
        (compressVideo c tr).recState = RecState.inactive →
        (step c (compressVideo c tr) Ev.canplay).settled.isSome = true ∧
        released (step c (compressVideo c tr) Ev.canplay) ∧
        ((compressVideo c tr).settled = none →
            (step c (compressVideo c tr) Ev.canplay).settled
              = some (Outcome.failure FailReason.startRecording))) := by
  refine ⟨fun o e h => step_settled_mono c _ e o h, ?_, ?_, ?_, ?_, ?_, ?_⟩
  · show (evVideoError (compressVideo c tr)).settled.isSome = true
    unfold evVideoError
    simp
  · intro h
    show (evRecError (compressVideo c tr)).settled.isSome = true
    unfold evRecError
    rw [if_pos h]
    simp
  · intro h
    show (evPlayError (compressVideo c tr)).settled.isSome = true
    unfold evPlayError
    rw [if_pos h]
    simp
  · intro h
    show (evReaderError (compressVideo c tr)).settled.isSome = true
    unfold evReaderError
    rw [if_pos h]
    simp
  · intro r e hnone hsome
    exact step_new_failure c _ e r (compressVideo_machineInv c tr) hnone hsome
  · intro hsf hip hrc hhs hrs
    have hstep : step c (compressVideo c tr) Ev.canplay
        = settle (Outcome.failure FailReason.startRecording)
            (cleanup { compressVideo c tr with hasStarted := true }) := by
      show evCanplay c (compressVideo c tr) = _
      unfold evCanplay
      rw [if_neg (by simp [hip, hrc, hhs])]
      unfold processNextFrame
      rw [if_neg (by simp [hip, hrc]), if_pos ⟨hhs, hrs, hsf⟩]
    refine ⟨?_, ?_, ?_⟩
    · rw [hstep]
      simp
    · rw [hstep]
      refine ⟨by simp, ?_, by simp⟩
      rw [settle_recState]
      exact cleanup_recState_inactive _ (fun _ => hrc)
    · intro hnone
      rw [hstep]
      exact settle_settled_of_none _ _ (by simpa using hnone)

/-- Witness for C7 at concrete inputs. -/
theorem c7_witness :
    (step sampleCtx (compressVideo sampleCtx [Ev.metadata]) Ev.videoError).settled.isSome
      = true ∧
    (step sampleCtx (compressVideo sampleCtx [Ev.metadata]) Ev.recError).settled.isSome
      = true ∧
    released (step sampleCtx (compressVideo sampleCtx [Ev.metadata]) Ev.videoError) ∧
    (step startFailCtx (compressVideo startFailCtx [Ev.metadata]) Ev.canplay).settled
      = some (Outcome.failure FailReason.startRecording) ∧
    released (step startFailCtx (compressVideo startFailCtx [Ev.metadata]) Ev.canplay) := by
  have h := c7_amended sampleCtx [Ev.metadata]
  have h2 := c7_amended startFailCtx [Ev.metadata]
  have h7 := h2.2.2.2.2.2.2 (by norm_num [startFailCtx, sampleCtx])
    (by norm_num [compressVideo, step, evMetadata, assignCurrentTime, initState, startFailCtx,
      sampleCtx, computeTargetGeometry])
    (by norm_num [compressVideo, step, evMetadata, assignCurrentTime, initState, startFailCtx,
      sampleCtx, computeTargetGeometry])
    (by norm_num [compressVideo, step, evMetadata, assignCurrentTime, initState, startFailCtx,
      sampleCtx, computeTargetGeometry])
    (by norm_num [compressVideo, step, evMetadata, assignCurrentTime, initState, startFailCtx,
      sampleCtx, computeTargetGeometry])
  refine ⟨h.2.1, h.2.2.1 ?_, h.2.2.2.2.2.1 FailReason.loadVideo Ev.videoError ?_ ?_,
    h7.2.2 ?_, h7.2.1⟩
  · norm_num [compressVideo, step, evMetadata, assignCurrentTime, initState, sampleCtx,
      computeTargetGeometry]
  · norm_num [compressVideo, step, evMetadata, assignCurrentTime, initState, sampleCtx,
      computeTargetGeometry]
  · norm_num [compressVideo, step, evMetadata, evVideoError, assignCurrentTime, settle, cleanup,
      initState, sampleCtx, computeTargetGeometry]
  · norm_num [compressVideo, step, evMetadata, assignCurrentTime, initState, startFailCtx,
      sampleCtx, computeTargetGeometry]

/-! ## The canonical complete run: frame counts (C1), zero duration (C3), progress reports (C6) -/

theorem reportsAfter_zero (c : Ctx) : reportsAfter c 0 = (0, []) := rfl

theorem reportsAfter_succ (c : Ctx) (k : ℕ) :
    reportsAfter c (k + 1) = reportStep c k (reportsAfter c k) := by
  unfold reportsAfter
  rw [List.range_succ, List.foldl_append]
  rfl

theorem lt_nFrames_iff (c : Ctx) (hfi : 0 < frameInterval c) (m : ℕ) :
    ((m : ℚ) * frameInterval c < c.durationMs) ↔ m < nFrames c := by
  have hfps : (0 : ℚ) < (c.fps : ℚ) := by
    rcases Nat.eq_zero_or_pos c.fps with h0 | hpos
    · exfalso
      unfold frameInterval at hfi
      rw [h0] at hfi
      norm_num at hfi
    · exact_mod_cast hpos
  have hdiv : c.durationMs / frameInterval c = c.durationMs * (c.fps : ℚ) / 1000 := by
    unfold frameInterval
    field_simp
  constructor
  · intro h
    have h2 : (m : ℚ) < c.durationMs / frameInterval c := (lt_div_iff₀ hfi).2 h
    rw [hdiv] at h2
    exact Nat.lt_ceil.2 h2
  · intro h
    have h2 : (m : ℚ) < c.durationMs * (c.fps : ℚ) / 1000 := Nat.lt_ceil.1 h
    rw [← hdiv] at h2
    exact (lt_div_iff₀ hfi).1 h2

theorem pnfProgress_chars (c : Ctx) (s : PState) (j : ℕ) (st : ℚ × List ℤ)
    (hfc : s.frameCount = j + 1) (hlp : s.lastProgressUpdate = st.1) (hrp : s.reports = st.2) :
    (pnfProgress c s).lastProgressUpdate = (reportStep c j st).1 ∧
    (pnfProgress c s).reports = (reportStep c j st).2 := by
  unfold pnfProgress reportStep pnfProgressValue
  rw [hfc, hlp, hrp]
  push_cast
  split_ifs <;> first
    | exact ⟨rfl, rfl⟩
    | exact ⟨hlp, hrp⟩

theorem pnf_canonical (c : Ctx) (s : PState) (k : ℕ)
    (hdf : c.drawFails = false) (hsf : c.startFails = false)
    (hp : s.isProcessing = true) (hrc : s.recCreated = true)
    (hst : (s.hasStarted = false ∧ s.recState = RecState.inactive) ∨
           (s.hasStarted = true ∧ s.recState = RecState.recording))
    (hseek : s.isSeeking = false)
    (hfc : s.frameCount = k)
    (hlp : s.lastProgressUpdate = (reportsAfter c k).1)
    (hrp : s.reports = (reportsAfter c k).2)
    (hdrawn : s.drawn = (List.range k).map (fun j : ℕ => (j : ℚ) * frameInterval c))
    (hfls : s.frameLoopSeeks = (List.range k).map (fun j : ℕ => ((j + 1 : ℕ) : ℚ) * frameInterval c))
    (hset : s.settled = none) (hexn : s.exn = false)
    (hstf : s.stopFired = false) (hons : s.onstopRan = false) (hra : s.readerActive = false) :
    (((k + 1 : ℕ) : ℚ) * frameInterval c < c.durationMs →
        LoopInv c k (processNextFrame c s)) ∧
    (¬ ((k + 1 : ℕ) : ℚ) * frameInterval c < c.durationMs →
        FinishAt c (k + 1) (processNextFrame c s)) := by
  have hpnf : processNextFrame c s = pnfAdvance c (pnfProgress c (pnfDraw c (pnfStart s))) := by
    unfold processNextFrame
    rw [if_neg (by simp [hp, hrc]), if_neg (by simp [hsf]), if_neg (by simp [hdf])]
  have hA : (pnfStart s).recState = RecState.recording := by
    rcases hst with ⟨h1, h2⟩ | ⟨h1, h2⟩
    · unfold pnfStart
      rw [if_pos ⟨h1, h2⟩]
    · unfold pnfStart
      rw [if_neg (by simp [h1])]
      simpa using h2
  have hchars := pnfProgress_chars c (pnfDraw c (pnfStart s)) k (reportsAfter c k)
    (by simp [hfc]) (by simp [hlp]) (by simp [hrp])
  have hlp2 : (pnfProgress c (pnfDraw c (pnfStart s))).lastProgressUpdate
      = (reportsAfter c (k + 1)).1 := by
    rw [hchars.1, ← reportsAfter_succ]
  have hrp2 : (pnfProgress c (pnfDraw c (pnfStart s))).reports
      = (reportsAfter c (k + 1)).2 := by
    rw [hchars.2, ← reportsAfter_succ]
  have hdrawn2 : (pnfProgress c (pnfDraw c (pnfStart s))).drawn
      = (List.range (k + 1)).map (fun j : ℕ => (j : ℚ) * frameInterval c) := by
    simp [hdrawn, hfc, List.range_succ]
  have hfcnew : (pnfProgress c (pnfDraw c (pnfStart s))).frameCount = k + 1 := by
    simp [hfc]
  constructor
  · intro hlt
    rw [hpnf]
    unfold pnfAdvance
    rw [if_pos (by rw [hfcnew]; exact_mod_cast hlt)]
    rw [if_pos (by simp [hseek])]
    refine ⟨by simp [hp], by simp, by simp [hrc], by simp [hA], by simp [hset], by simp [hexn],
      by simp [hstf], by simp [hons], by simp [hra], by simp [assignCurrentTime], ?_, ?_, ?_, ?_,
      ?_, ?_⟩
    · simp [assignCurrentTime, hfc]
    · simp [assignCurrentTime, hfc]
    · simp only [assignCurrentTime_lastProgressUpdate, pnfAdvance_lastProgressUpdate]
      simpa using hlp2
    · simp only [assignCurrentTime_reports, pnfAdvance_reports]
      simpa using hrp2
    · simp only [assignCurrentTime_drawn, pnfAdvance_drawn]
      simpa using hdrawn2
    · simp [assignCurrentTime, hfls, hfc, List.range_succ]
  · intro hge
    rw [hpnf]
    unfold pnfAdvance
    rw [if_neg (by rw [hfcnew]; exact_mod_cast hge)]
    rw [if_pos (by simp [hA])]
    refine ⟨by simp [hp], by simp, by simp [hrc], by simp, by simp [hset], by simp [hexn],
      by simp, by simp [hons], by simp [hra], by simp [hfc], ?_, ?_, ?_, ?_⟩
    · simpa using hlp2
    · simpa using hrp2
    · simpa using hdrawn2
    · show ({ pnfProgress c (pnfDraw c (pnfStart s)) with
        recState := RecState.inactive, stopFired := true } : PState).frameLoopSeeks = _
      simp only []
      simp [hfls, hfc]

theorem canonical_start (c : Ctx) (hsf : c.startFails = false) (hdf : c.drawFails = false) :
    (((1 : ℕ) : ℚ) * frameInterval c < c.durationMs →
        LoopInv c 0 (compressVideo c [Ev.metadata, Ev.canplay])) ∧
    (¬ ((1 : ℕ) : ℚ) * frameInterval c < c.durationMs →
        FinishAt c 1 (compressVideo c [Ev.metadata, Ev.canplay])) := by
  have hmeta : evMetadata c initState = assignCurrentTime SeekKind.first 0
      { initState with isProcessing := true, canvasW := (computeTargetGeometry c.naturalW c.naturalH).1, canvasH := (computeTargetGeometry c.naturalW c.naturalH).2, recCreated := true, recState := RecState.inactive } := by
    unfold evMetadata
    rw [if_neg (by simp [initState])]
  have hrun : compressVideo c [Ev.metadata, Ev.canplay]
      = processNextFrame c (evMetadata c initState) := by
    show evCanplay c (evMetadata c initState) = _
    unfold evCanplay
    rw [if_neg (by rw [hmeta]; simp [assignCurrentTime, initState])]
  rw [hrun]
  exact pnf_canonical c (evMetadata c initState) 0 hdf hsf
    (by rw [hmeta]; simp [assignCurrentTime, initState])
    (by rw [hmeta]; simp [assignCurrentTime, initState])
    (Or.inl ⟨by rw [hmeta]; simp [assignCurrentTime, initState],
      by rw [hmeta]; simp [assignCurrentTime, initState]⟩)
    (by rw [hmeta]; simp [assignCurrentTime, initState])
    (by rw [hmeta]; simp [assignCurrentTime, initState])
    (by rw [hmeta]; simp [assignCurrentTime, initState, reportsAfter_zero])
    (by rw [hmeta]; simp [assignCurrentTime, initState, reportsAfter_zero])
    (by rw [hmeta]; simp [assignCurrentTime, initState])
    (by rw [hmeta]; simp [assignCurrentTime, initState])
    (by rw [hmeta]; simp [assignCurrentTime, initState])
    (by rw [hmeta]; simp [assignCurrentTime, initState])
    (by rw [hmeta]; simp [assignCurrentTime, initState])
    (by rw [hmeta]; simp [assignCurrentTime, initState])
    (by rw [hmeta]; simp [assignCurrentTime, initState])

theorem loop_seeked (c : Ctx) (hsf : c.startFails = false) (hdf : c.drawFails = false)
    (k : ℕ) (s : PState) (hL : LoopInv c k s) :
    (((k + 2 : ℕ) : ℚ) * frameInterval c < c.durationMs →
        LoopInv c (k + 1) (step c s Ev.seeked)) ∧
    (¬ ((k + 2 : ℕ) : ℚ) * frameInterval c < c.durationMs →
        FinishAt c (k + 2) (step c s Ev.seeked)) := by
  obtain ⟨hp, hhs, hrc, hrs, hset, hexn, hstf, hons, hra, hseek, hpend, hfc, hlp, hrp,
    hdrawn, hfls⟩ := hL
  have hstep : step c s Ev.seeked = processNextFrame c
      { s with pendingSeek := none, concurrent := s.concurrent - 1, isSeeking := false } := by
    show evSeeked c s = _
    unfold evSeeked
    simp only [hpend]
    rw [if_neg (by simp [hp, hrc, hseek])]
  rw [hstep]
  have h := pnf_canonical c
    { s with pendingSeek := none, concurrent := s.concurrent - 1, isSeeking := false }
    (k + 1) hdf hsf
    (by simpa using hp) (by simpa using hrc)
    (Or.inr ⟨by simpa using hhs, by simpa using hrs⟩)
    (by simp)
    (by simpa using hfc)
    (by simpa using hlp)
    (by simpa using hrp)
    (by simpa using hdrawn)
    (by simpa using hfls)
    (by simpa using hset) (by simpa using hexn)
    (by simpa using hstf) (by simpa using hons) (by simpa using hra)
  exact ⟨fun hlt => h.1 (by exact_mod_cast hlt), fun hge => h.2 (by exact_mod_cast hge)⟩

theorem fps_cast_pos (c : Ctx) (hfi : 0 < frameInterval c) : (0 : ℚ) < (c.fps : ℚ) := by
  rcases Nat.eq_zero_or_pos c.fps with h0 | hpos
  · exfalso
    unfold frameInterval at hfi
    rw [h0] at hfi
    norm_num at hfi
  · exact_mod_cast hpos

theorem compressVideo_append (c : Ctx) (l1 l2 : List Ev) :
    compressVideo c (l1 ++ l2) = l2.foldl (step c) (compressVideo c l1) := by
  unfold compressVideo
  rw [List.foldl_append]

theorem canonical_loop (c : Ctx) (hfi : 0 < frameInterval c)
    (hsf : c.startFails = false) (hdf : c.drawFails = false) (k : ℕ)
    (hk : k + 1 < nFrames c) :
    LoopInv c k (compressVideo c ([Ev.metadata, Ev.canplay] ++ List.replicate k Ev.seeked)) := by
  induction k with
  | zero =>
    simpa using (canonical_start c hsf hdf).1
      ((lt_nFrames_iff c hfi 1).2 (by simpa using hk))
  | succ k ih =>
    have hL := ih (Nat.lt_of_succ_lt hk)
    have hsplit : ([Ev.metadata, Ev.canplay] ++ List.replicate (k + 1) Ev.seeked)
        = ([Ev.metadata, Ev.canplay] ++ List.replicate k Ev.seeked) ++ [Ev.seeked] := by
      rw [List.replicate_succ']
      simp
    rw [hsplit, compressVideo_append]
    exact (loop_seeked c hsf hdf k _ hL).1
      ((lt_nFrames_iff c hfi (k + 2)).2 (by omega))

theorem canonical_finish (c : Ctx) (hfi : 0 < frameInterval c) (hD : 0 < c.durationMs)
    (hsf : c.startFails = false) (hdf : c.drawFails = false) :
    FinishInv c (compressVideo c
      ([Ev.metadata, Ev.canplay] ++ List.replicate (nFrames c - 1) Ev.seeked)) := by
  have hn1 : 1 ≤ nFrames c := by
    have hq : (0 : ℚ) < c.durationMs * (c.fps : ℚ) / 1000 := by
      have := fps_cast_pos c hfi
      positivity
    exact Nat.ceil_pos.2 hq
  rcases eq_or_lt_of_le hn1 with heq | hlt
  · rw [show nFrames c - 1 = 0 from by omega]
    unfold FinishInv
    rw [← heq]
    have hneg : ¬ ((1 : ℕ) : ℚ) * frameInterval c < c.durationMs := by
      intro hcon
      have := (lt_nFrames_iff c hfi 1).1 hcon
      omega
    have h2 := (canonical_start c hsf hdf).2 hneg
    simpa using h2
  · obtain ⟨m, hm⟩ : ∃ m, nFrames c = m + 2 := ⟨nFrames c - 2, by omega⟩
    rw [show nFrames c - 1 = m + 1 from by omega]
    have hL := canonical_loop c hfi hsf hdf m (by omega)
    have hsplit : ([Ev.metadata, Ev.canplay] ++ List.replicate (m + 1) Ev.seeked)
        = ([Ev.metadata, Ev.canplay] ++ List.replicate m Ev.seeked) ++ [Ev.seeked] := by
      rw [List.replicate_succ']
      simp
    rw [hsplit, compressVideo_append]
    unfold FinishInv
    rw [hm]
    refine (loop_seeked c hsf hdf m _ hL).2 ?_
    intro hcon
    have := (lt_nFrames_iff c hfi (m + 2)).1 hcon
    omega

theorem canonical_complete (c : Ctx) (hfi : 0 < frameInterval c) (hD : 0 < c.durationMs)
    (hsf : c.startFails = false) (hdf : c.drawFails = false) :
    (compressVideo c (canonicalTrace (nFrames c - 1))).settled = some Outcome.success ∧
    (compressVideo c (canonicalTrace (nFrames c - 1))).drawn
      = (List.range (nFrames c)).map (fun j : ℕ => (j : ℚ) * frameInterval c) ∧
    (compressVideo c (canonicalTrace (nFrames c - 1))).reports
      = (reportsAfter c (nFrames c)).2 ∧
    (compressVideo c (canonicalTrace (nFrames c - 1))).frameLoopSeeks
      = (List.range (nFrames c - 1)).map (fun j : ℕ => ((j + 1 : ℕ) : ℚ) * frameInterval c) ∧
    (compressVideo c (canonicalTrace (nFrames c - 1))).exn = false := by
  obtain ⟨hp, hhs, hrc, hrs, hset, hexn, hstf, hons, hra, hfc, hlp, hrp, hdrawn, hfls⟩ :=
    canonical_finish c hfi hD hsf hdf
  have htr : canonicalTrace (nFrames c - 1)
      = ([Ev.metadata, Ev.canplay] ++ List.replicate (nFrames c - 1) Ev.seeked)
        ++ [Ev.recStopped, Ev.readerLoad] := by
    unfold canonicalTrace
    simp
  rw [htr, compressVideo_append]
  set fs := compressVideo c ([Ev.metadata, Ev.canplay] ++ List.replicate (nFrames c - 1) Ev.seeked)
    with hfs
  have hstop : step c fs Ev.recStopped
      = { cleanup { fs with onstopRan := true } with readerActive := true } := by
    show evRecStopped fs = _
    unfold evRecStopped
    rw [if_pos ⟨hstf, hons⟩]
  have hclean : (cleanup { fs with onstopRan := true }).recState = RecState.inactive :=
    cleanup_recState_inactive _ (by intro hx; rw [show ({ fs with onstopRan := true } : PState).recState = fs.recState from rfl, hrs] at hx; cases hx)
  show (List.foldl (step c) fs [Ev.recStopped, Ev.readerLoad]).settled = _ ∧ _
  have hfold : List.foldl (step c) fs [Ev.recStopped, Ev.readerLoad]
      = step c (step c fs Ev.recStopped) Ev.readerLoad := rfl
  rw [hfold, hstop]
  have hread : step c ({ cleanup { fs with onstopRan := true } with readerActive := true} : PState)
      Ev.readerLoad
      = settle Outcome.success { ({ cleanup { fs with onstopRan := true} with readerActive := true} : PState) with readerActive := false } := by
    show evReaderLoad _ = _
    unfold evReaderLoad
    rw [if_pos rfl]
  rw [hread]
  refine ⟨?_, ?_, ?_, ?_, ?_⟩
  · rw [settle_settled_of_none]
    simpa using hset
  · simp only [settle_drawn]
    simpa using hdrawn
  · simp only [settle_reports]
    simpa using hrp
  · simp only [settle_frameLoopSeeks]
    simpa using hfls
  · simp only [settle_exn]
    simpa using hexn

/-- C1 amended: for every source with positive finite duration and positive
integer fps, the complete canonical run of `compressVideo` draws exactly
`⌈durationMs * fps / 1000⌉` frames, at timestamps `0, 1000/fps, …,
(n-1) * 1000/fps` — this equals `⌊durationMs / (1000/fps)⌋ + 1` only when
`1000/fps` does not divide `durationMs`; for a 2000 ms source at `fps = 10`
the run draws 20 frames (0, 100, …, 1900 ms), not 21. -/
theorem c1_amended_frame_count (c : Ctx) (hD : 0 < c.durationMs) (hfps : 1 ≤ c.fps)
    (hsf : c.startFails = false) (hdf : c.drawFails = false) :
    (compressVideo c (canonicalTrace (nFrames c - 1))).drawn
      = (List.range (nFrames c)).map (fun j : ℕ => (j : ℚ) * frameInterval c) ∧
    (compressVideo c (canonicalTrace (nFrames c - 1))).drawn.length = nFrames c ∧
    nFrames c = Nat.ceil (c.durationMs * (c.fps : ℚ) / 1000) ∧
    (compressVideo c (canonicalTrace (nFrames c - 1))).settled = some Outcome.success := by
  have hfi : 0 < frameInterval c :=
    div_pos (by norm_num) (by exact_mod_cast lt_of_lt_of_le Nat.zero_lt_one hfps)
  obtain ⟨hsettled, hdrawn, _, _, _⟩ := canonical_complete c hfi hD hsf hdf
  refine ⟨hdrawn, ?_, rfl, hsettled⟩
  rw [hdrawn, List.length_map, List.length_range]

/-- Witness for C1 at the concrete scenario-A input. -/
theorem c1_witness :
    (0 : ℚ) < sampleCtx.durationMs ∧ 1 ≤ sampleCtx.fps ∧
    ((compressVideo sampleCtx (canonicalTrace (nFrames sampleCtx - 1))).drawn
        = (List.range (nFrames sampleCtx)).map (fun j : ℕ => (j : ℚ) * frameInterval sampleCtx) ∧
      (compressVideo sampleCtx (canonicalTrace (nFrames sampleCtx - 1))).drawn.length
        = nFrames sampleCtx ∧
      nFrames sampleCtx = Nat.ceil (sampleCtx.durationMs * (sampleCtx.fps : ℚ) / 1000) ∧
      (compressVideo sampleCtx (canonicalTrace (nFrames sampleCtx - 1))).settled
        = some Outcome.success) :=
  ⟨by norm_num [sampleCtx], by norm_num [sampleCtx],
    c1_amended_frame_count sampleCtx (by norm_num [sampleCtx]) (by norm_num [sampleCtx]) rfl rfl⟩

/-- C3 amended: when the source's duration is reported as 0, `compressVideo`
does not loop forever — it issues no frame-loop seek at all — but it does
not fail either: it draws exactly one frame, stops the recorder and resolves
successfully with a degenerate one-frame artifact (no `UnsupportedSource`
error exists in the code), with no exception escaping. -/
theorem c3_amended (c : Ctx) (hD0 : c.durationMs = 0)
    (hsf : c.startFails = false) (hdf : c.drawFails = false) :
    (compressVideo c [Ev.metadata, Ev.canplay, Ev.recStopped, Ev.readerLoad]).settled
      = some Outcome.success ∧
    (compressVideo c [Ev.metadata, Ev.canplay, Ev.recStopped, Ev.readerLoad]).frameLoopSeeks
      = [] ∧
    (compressVideo c [Ev.metadata, Ev.canplay, Ev.recStopped, Ev.readerLoad]).drawn.length
      = 1 ∧
    (compressVideo c [Ev.metadata, Ev.canplay, Ev.recStopped, Ev.readerLoad]).exn = false := by
  have hfi0 : (0 : ℚ) ≤ frameInterval c := by
    unfold frameInterval
    positivity
  have hneg : ¬ ((1 : ℕ) : ℚ) * frameInterval c < c.durationMs := by
    rw [hD0]
    intro hcon
    nlinarith
  obtain ⟨hp, hhs, hrc, hrs, hset, hexn, hstf, hons, hra, hfc, hlp, hrp, hdrawn, hfls⟩ :=
    (canonical_start c hsf hdf).2 hneg
  set fs := compressVideo c [Ev.metadata, Ev.canplay] with hfsdef
  have htr : compressVideo c [Ev.metadata, Ev.canplay, Ev.recStopped, Ev.readerLoad]
      = List.foldl (step c) fs [Ev.recStopped, Ev.readerLoad] := rfl
  rw [htr]
  have hstop : step c fs Ev.recStopped
      = { cleanup { fs with onstopRan := true } with readerActive := true } := by
    show evRecStopped fs = _
    unfold evRecStopped
    rw [if_pos ⟨hstf, hons⟩]
  have hfold : List.foldl (step c) fs [Ev.recStopped, Ev.readerLoad]
      = step c (step c fs Ev.recStopped) Ev.readerLoad := rfl
  rw [hfold, hstop]
  have hread : step c ({ cleanup { fs with onstopRan := true } with readerActive := true} : PState)
      Ev.readerLoad
      = settle Outcome.success { ({ cleanup { fs with onstopRan := true} with readerActive := true} : PState) with readerActive := false } := by
    show evReaderLoad _ = _
    unfold evReaderLoad
    rw [if_pos rfl]
  rw [hread]
  refine ⟨?_, ?_, ?_, ?_⟩
  · rw [settle_settled_of_none]
    simpa using hset
  · simp only [settle_frameLoopSeeks]
    simpa using hfls
  · simp only [settle_drawn]
    have : fs.drawn.length = 1 := by rw [hdrawn]; simp
    simpa using this
  · simp only [settle_exn]
    simpa using hexn

/-- Witness for C3 at the concrete scenario-B input. -/
theorem c3_witness :
    zeroDurCtx.durationMs = 0 ∧
    ((compressVideo zeroDurCtx [Ev.metadata, Ev.canplay, Ev.recStopped, Ev.readerLoad]).settled
        = some Outcome.success ∧
      (compressVideo zeroDurCtx
        [Ev.metadata, Ev.canplay, Ev.recStopped, Ev.readerLoad]).frameLoopSeeks = [] ∧
      (compressVideo zeroDurCtx
        [Ev.metadata, Ev.canplay, Ev.recStopped, Ev.readerLoad]).drawn.length = 1 ∧
      (compressVideo zeroDurCtx
        [Ev.metadata, Ev.canplay, Ev.recStopped, Ev.readerLoad]).exn = false) :=
  ⟨by norm_num [zeroDurCtx, sampleCtx],
    c3_amended zeroDurCtx (by norm_num [zeroDurCtx, sampleCtx]) rfl rfl⟩

theorem reportsAfter_inv (c : Ctx) (hfi : 0 < frameInterval c) (hD : 0 < c.durationMs)
    (k : ℕ) (hk : k < nFrames c) :
    0 ≤ (reportsAfter c k).1 ∧ (reportsAfter c k).1 ≤ 100 ∧
    (∀ last ∈ (reportsAfter c k).2.getLast?, last = Int.floor (reportsAfter c k).1) ∧
    List.Chain' (fun a b : ℤ => a + 3 ≤ b) (reportsAfter c k).2 := by
  induction k with
  | zero =>
    rw [reportsAfter_zero]
    refine ⟨le_refl 0, by norm_num, by simp, by simp⟩
  | succ k ih =>
    obtain ⟨i1, i2, i3, i4⟩ := ih (Nat.lt_of_succ_lt hk)
    rw [reportsAfter_succ]
    unfold reportStep
    have hD' : ¬ c.durationMs = 0 := ne_of_gt hD
    simp only [hD', if_false]
    have hp0 : (0 : ℚ) ≤ min (((k + 1 : ℕ) : ℚ) * frameInterval c / c.durationMs * 100) 100 :=
      le_min (by positivity) (by norm_num)
    have hple : min (((k + 1 : ℕ) : ℚ) * frameInterval c / c.durationMs * 100) 100 ≤ 100 :=
      min_le_right _ _
    have hplt : min (((k + 1 : ℕ) : ℚ) * frameInterval c / c.durationMs * 100) 100 < 100 := by
      have hlt : ((k + 1 : ℕ) : ℚ) * frameInterval c < c.durationMs :=
        (lt_nFrames_iff c hfi (k + 1)).2 hk
      have hval : ((k + 1 : ℕ) : ℚ) * frameInterval c / c.durationMs * 100 < 100 := by
        rw [div_mul_eq_mul_div, div_lt_iff₀ hD]
        nlinarith
      exact lt_of_le_of_lt (min_le_left _ _) hval
    split_ifs with hfire
    · have hgap : 3 ≤ min (((k + 1 : ℕ) : ℚ) * frameInterval c / c.durationMs * 100) 100
          - (reportsAfter c k).1 := by
        rcases hfire.2 with h | h
        · exact h
        · exact absurd h (not_le.2 hplt)
      refine ⟨hp0, hple, ?_, ?_⟩
      · intro last hl
        rw [List.getLast?_concat] at hl
        simp at hl ⊢
        exact hl.symm
      · rw [List.chain'_append]
        refine ⟨i4, List.chain'_singleton _, ?_⟩
        intro x hx y hy
        simp at hy
        subst hy
        rw [i3 x hx]
        have hle3 : (reportsAfter c k).1 + (3 : ℚ)
            ≤ min (((k + 1 : ℕ) : ℚ) * frameInterval c / c.durationMs * 100) 100 := by
          linarith
        calc Int.floor (reportsAfter c k).1 + 3
            = Int.floor ((reportsAfter c k).1 + ((3 : ℤ) : ℚ)) := by
              rw [Int.floor_add_int]
          _ ≤ _ := Int.floor_le_floor (by push_cast at hle3 ⊢; exact hle3)
    · exact ⟨i1, i2, i3, i4⟩

/-- C6 amended: on a complete canonical run with a progress callback, the
values passed to `onProgress` are monotonically non-decreasing, the final
call passes exactly 100, and every pair of consecutive calls other than
possibly the final pair is separated by at least 3 points; the final call
(fired because progress reached 100) may follow its predecessor by less
than 3 points. -/
theorem c6_amended (c : Ctx) (hD : 0 < c.durationMs) (hfps : 1 ≤ c.fps)
    (hOn : c.hasOnProgress = true) (hsf : c.startFails = false) (hdf : c.drawFails = false) :
    List.Chain' (fun a b : ℤ => a ≤ b)
      (compressVideo c (canonicalTrace (nFrames c - 1))).reports ∧
    (compressVideo c (canonicalTrace (nFrames c - 1))).reports.getLast? = some 100 ∧
    (∀ i, i + 2 < (compressVideo c (canonicalTrace (nFrames c - 1))).reports.length →
      (compressVideo c (canonicalTrace (nFrames c - 1))).reports.getD i 0 + 3
        ≤ (compressVideo c (canonicalTrace (nFrames c - 1))).reports.getD (i + 1) 0) := by
  have hfi : 0 < frameInterval c :=
    div_pos (by norm_num) (by exact_mod_cast lt_of_lt_of_le Nat.zero_lt_one hfps)
  obtain ⟨_, _, hrp, _, _⟩ := canonical_complete c hfi hD hsf hdf
  rw [hrp]
  have hn1 : 1 ≤ nFrames c := by
    have hq : (0 : ℚ) < c.durationMs * (c.fps : ℚ) / 1000 := by
      have := fps_cast_pos c hfi
      positivity
    exact Nat.ceil_pos.2 hq
  obtain ⟨m, hm⟩ : ∃ m, nFrames c = m + 1 := ⟨nFrames c - 1, by omega⟩
  obtain ⟨i1, i2, i3, i4⟩ := reportsAfter_inv c hfi hD m (by omega)
  rw [hm, reportsAfter_succ]
  unfold reportStep
  have hD' : ¬ c.durationMs = 0 := ne_of_gt hD
  simp only [hD', if_false]
  have hge : c.durationMs ≤ ((m + 1 : ℕ) : ℚ) * frameInterval c := by
    by_contra hcon
    push_neg at hcon
    have := (lt_nFrames_iff c hfi (m + 1)).1 hcon
    omega
  have hp100 : min (((m + 1 : ℕ) : ℚ) * frameInterval c / c.durationMs * 100) 100 = 100 := by
    refine min_eq_right ?_
    rw [div_mul_eq_mul_div, le_div_iff₀ hD]
    nlinarith
  rw [if_pos ⟨hOn, Or.inr (by rw [hp100])⟩]
  rw [hp100]
  have hfl100 : Int.floor ((100 : ℚ)) = (100 : ℤ) := by norm_num
  refine ⟨?_, ?_, ?_⟩
  · show List.Chain' _ ((reportsAfter c m).2 ++ [Int.floor (100 : ℚ)])
    rw [List.chain'_append]
    refine ⟨i4.imp (fun {a b} h => by omega), List.chain'_singleton _, ?_⟩
    intro x hx y hy
    simp at hy
    subst hy
    rw [i3 x hx]
    have h2 : Int.floor (reportsAfter c m).1 ≤ Int.floor ((100 : ℚ)) := Int.floor_le_floor i2
    have h3 : Int.floor ((100 : ℚ)) = (100 : ℤ) := by norm_num
    omega
  · show ((reportsAfter c m).2 ++ [Int.floor (100 : ℚ)]).getLast? = some 100
    rw [List.getLast?_concat, hfl100]
  · intro i hlen
    show ((reportsAfter c m).2 ++ [Int.floor (100 : ℚ)]).getD i 0 + 3
      ≤ ((reportsAfter c m).2 ++ [Int.floor (100 : ℚ)]).getD (i + 1) 0
    have hlen2 : i + 2 < (reportsAfter c m).2.length + 1 := by
      simpa using hlen
    have hi1 : i + 1 < (reportsAfter c m).2.length := by omega
    have hi0 : i < (reportsAfter c m).2.length := by omega
    rw [List.getD_append _ _ _ _ hi0, List.getD_append _ _ _ _ hi1,
      List.getD_eq_get _ _ hi0, List.getD_eq_get _ _ hi1]
    have := List.chain'_iff_get.1 i4 i (by omega)
    exact this

/-- Witness for C6 at the concrete input. -/
theorem c6_witness :
    (0 : ℚ) < throttleCtx.durationMs ∧ 1 ≤ throttleCtx.fps ∧
    throttleCtx.hasOnProgress = true ∧
    (List.Chain' (fun a b : ℤ => a ≤ b)
        (compressVideo throttleCtx (canonicalTrace (nFrames throttleCtx - 1))).reports ∧
      (compressVideo throttleCtx
        (canonicalTrace (nFrames throttleCtx - 1))).reports.getLast? = some 100 ∧
      (∀ i, i + 2 < (compressVideo throttleCtx
          (canonicalTrace (nFrames throttleCtx - 1))).reports.length →
        (compressVideo throttleCtx
          (canonicalTrace (nFrames throttleCtx - 1))).reports.getD i 0 + 3
          ≤ (compressVideo throttleCtx
            (canonicalTrace (nFrames throttleCtx - 1))).reports.getD (i + 1) 0)) :=
  ⟨by norm_num [throttleCtx, sampleCtx], by norm_num [throttleCtx, sampleCtx], rfl,
    c6_amended throttleCtx (by norm_num [throttleCtx, sampleCtx])
      (by norm_num [throttleCtx, sampleCtx]) rfl rfl rfl⟩
